import Mathlib

/-!
# esri-ascii-parser: header validation and grid streaming

A shallow embedding of `esri-ascii-parser.go` (functions `boolToInt`, `parseFlags`,
`esriHeaderProcess`, `esriHeaderPersist`, `esriDataProcess`, `esriDataPersist`
and the part of `main` that runs after the flags are parsed).

Modelling conventions.

* `float64` values are rationals: arithmetic is exact, there is no rounding, no
  NaN and no infinity.  `int(x)` on a float truncates toward zero and is a 64-bit
  integer (see `goInt` for the values that do not fit).
* `strconv.ParseFloat` is library code; it is a parameter `ParseFloat` of every
  definition that parses a token, and the theorems hold for every such function.
  Closed examples instantiate it with `parseDecimal`.
* The input file is the list of lines that `bufio.Scanner` yields; scanning past
  the end leaves the empty text, as `Scanner.Text` does after a failed `Scan`.
  Lines longer than the buffer of the scanner are outside the model.
* A Go panic (from `checkErr` or from an index out of range) ends the run; what
  had been written to the devices before the panic stays written.
* The console, the output file and the database are the three fields of
  `Devices`.  Opening files and reaching the database are assumed to succeed.
-/

namespace EsriAsciiParser

/-! ## Library functions used by the program -/

/-- Go `unicode.IsSpace`: the white-space runes on which `strings.Fields` splits. -/
def isSpace (c : Char) : Bool :=
  let n := c.toNat
  (9 ≤ n && n ≤ 13) || n == 32 || n == 0x85 || n == 0xA0 || n == 0x1680 ||
  (0x2000 ≤ n && n ≤ 0x200A) || n == 0x2028 || n == 0x2029 || n == 0x202F ||
  n == 0x205F || n == 0x3000

/-- The loop of `strings.Fields`: `cur` is the field being read, reversed. -/
def fieldsAux : List Char → List Char → List (List Char)
  | [], cur => if cur.isEmpty then [] else [cur.reverse]
  | c :: cs, cur =>
    if isSpace c then
      (if cur.isEmpty then fieldsAux cs [] else cur.reverse :: fieldsAux cs [])
    else fieldsAux cs (c :: cur)

/-- Go `strings.Fields`: the maximal runs of non-space runes of `s`. -/
def strings_Fields (s : String) : List String :=
  (fieldsAux s.data []).map String.mk

/-- The loop of `strings.Split` for a one-rune separator. -/
def splitAux (sep : Char) : List Char → List Char → List (List Char)
  | [], cur => [cur.reverse]
  | c :: cs, cur =>
    if c = sep then cur.reverse :: splitAux sep cs [] else splitAux sep cs (c :: cur)

/-- Go `strings.Split(s, " ")`: the pieces of `s` between single space characters
(always at least one piece, empty pieces included). -/
def strings_Split_space (s : String) : List String :=
  (splitAux (Char.ofNat 32) s.data []).map String.mk

/-- Go `unicode.ToLower` as far as the program can observe it.  The lowered key
is only ever compared with an ASCII parameter name; the runes whose lower-case
form is an ASCII letter are `A`..`Z`, U+0130 (to `i`) and U+212A (to `k`).  Every
other rune is left as it is. -/
def toLowerRune (c : Char) : Char :=
  let n := c.toNat
  if 65 ≤ n ∧ n ≤ 90 then Char.ofNat (n + 32)
  else if n = 0x130 then Char.ofNat 105
  else if n = 0x212A then Char.ofNat 107
  else c

/-- Go `unicode.ToUpper` on the runes of the closed examples: `a`..`z` go to `A`..`Z`
and U+017F, the long s, goes to `S`.  The other runes are not modelled and are left
as they are. -/
def toUpperRune (c : Char) : Char :=
  let n := c.toNat
  if 97 ≤ n ∧ n ≤ 122 then Char.ofNat (n - 32)
  else if n = 0x17F then Char.ofNat 83
  else c

/-- Go `strings.ToLower`. -/
def strings_ToLower (s : String) : String :=
  String.mk (s.data.map toLowerRune)

/-- Go `strings.HasPrefix`, on runes. -/
def hasPrefixAux : List Char → List Char → Bool
  | _, [] => true
  | [], _ :: _ => false
  | c :: cs, p :: ps => c == p && hasPrefixAux cs ps

/-- The search of `strings.Contains`: `substr` starts at the first rune or further
on. -/
def containsAux : List Char → List Char → Bool
  | [], substr => substr.isEmpty
  | c :: cs, substr => hasPrefixAux (c :: cs) substr || containsAux cs substr

/-- Go `strings.Contains`. -/
def strings_Contains (s substr : String) : Bool :=
  containsAux s.data substr.data

/-- Truncation of a rational toward zero. -/
def truncate (x : ℚ) : Int :=
  if 0 ≤ x.num then x.num / (x.den : Int) else -((-x.num) / (x.den : Int))

/-- Go `int(x)` for a `float64` `x`, `int` being 64 bits wide: truncation toward
zero when the truncated value is an `int64`.  For the other values the language
leaves the result to the implementation; the model takes the most negative `int64`,
which is what the conversion gives on amd64. -/
def goInt (x : ℚ) : Int :=
  if -(2 ^ 63 : Int) ≤ truncate x ∧ truncate x < (2 ^ 63 : Int) then truncate x
  else -(2 ^ 63 : Int)

/-- The decimal digits `0`..`9`. -/
def isDigitRune (c : Char) : Bool := 48 ≤ c.toNat && c.toNat ≤ 57

/-- Value of a decimal digit. -/
def digitVal (c : Char) : Nat := c.toNat - 48

/-- The number written by a list of decimal digits. -/
def digitsVal (ds : List Char) : Nat := ds.foldl (fun a c => 10 * a + digitVal c) 0

/-- The exponent part of a decimal literal: empty, or `e`/`E`, an optional sign and
at least one digit. -/
def parseExponent : List Char → Option Int
  | [] => some 0
  | c :: cs =>
    if c = Char.ofNat 101 ∨ c = Char.ofNat 69 then
      match cs with
      | [] => none
      | s :: ds =>
        if s = Char.ofNat 45 then
          (if ds ≠ [] ∧ ds.all isDigitRune then some (-(digitsVal ds : Int)) else none)
        else if s = Char.ofNat 43 then
          (if ds ≠ [] ∧ ds.all isDigitRune then some (digitsVal ds : Int) else none)
        else (if cs.all isDigitRune then some (digitsVal cs : Int) else none)
    else none

/-- An unsigned decimal literal: digits with at most one point and at least one
digit, then the exponent part.  The value is exact. -/
def parseUnsigned (cs : List Char) : Option ℚ :=
  let ip := cs.takeWhile isDigitRune
  let r1 := cs.dropWhile isDigitRune
  let fp := match r1 with
    | c :: r => if c = Char.ofNat 46 then r.takeWhile isDigitRune else []
    | [] => []
  let r2 := match r1 with
    | c :: r => if c = Char.ofNat 46 then r.dropWhile isDigitRune else r1
    | [] => []
  if ip = [] ∧ fp = [] then none
  else
    match parseExponent r2 with
    | none => none
    | some e =>
      let m : ℚ := (digitsVal (ip ++ fp) : ℚ)
      let k : Int := e - fp.length
      some (if 0 ≤ k then m * (10 : ℚ) ^ k.toNat else m / (10 : ℚ) ^ (-k).toNat)

/-- The decimal literals that `strconv.ParseFloat` accepts, with their exact value:
optional sign, digits with an optional point, optional exponent.  It is the
instance of `ParseFloat` used in closed examples, on tokens where it agrees with
`strconv.ParseFloat`; it does not read hexadecimal literals, digit separators,
`inf` or `nan`, and it reports no range error. -/
def parseDecimal (s : String) : Option ℚ :=
  match s.data with
  | [] => none
  | c :: cs =>
    if c = Char.ofNat 45 then (parseUnsigned cs).map (fun q => -q)
    else if c = Char.ofNat 43 then parseUnsigned cs
    else parseUnsigned (c :: cs)

/-! ## Data model -/

/-- Index constants of the header parameters (the `iota` block). -/
def nCols : Nat := 0
/-- Index of `nrows`. -/
def nRows : Nat := 1
/-- Index of `xllcorner`. -/
def xllCorner : Nat := 2
/-- Index of `yllcorner`. -/
def yllCorner : Nat := 3
/-- Index of `cellsize`. -/
def cellSize : Nat := 4
/-- Index of `nodata_value`. -/
def noDataValue : Nat := 5

/-- Header name entry: `esriHeaderNameStruct`. -/
structure esriHeaderNameStruct where
  parameter : String
  value : String
  deriving DecidableEq, Repr

/-- One element of `esriHeaderDataStruct`. -/
structure esriHeaderDatum where
  parameter : String
  value : ℚ
  deriving DecidableEq, Repr

/-- The header: `esriHeaderStruct`.  `esriHeaderData` is a slice, so writes made by
`esriHeaderProcess` are seen by the caller; the model returns the updated header. -/
structure esriHeaderStruct where
  esriHeaderName : esriHeaderNameStruct
  esriHeaderData : List esriHeaderDatum
  deriving DecidableEq, Repr

/-- The value stored in slot `i` of the header (zero when the slot is missing). -/
def esriHeaderStruct.val (h : esriHeaderStruct) (i : Nat) : ℚ :=
  (h.esriHeaderData.getD i ⟨"", 0⟩).value

/-- The names of the header slots, in order. -/
def paramNames (h : esriHeaderStruct) : List String :=
  h.esriHeaderData.map (fun s => s.parameter)

/-- The values a panicking goroutine is stopped with. -/
inductive GoPanic where
  | indexOutOfRange
  | errorString (msg : String)
  | numError (token : String)
  deriving DecidableEq, Repr

deriving instance DecidableEq for Except

/-- The process-wide variables set from the command line. -/
structure Globals where
  outputToConsole : Bool
  outputToFile : Bool
  outputToDb : Bool
  regionName : String
  deriving DecidableEq, Repr

/-- One grid sample as handed to the devices. -/
structure Cell where
  lat : ℚ
  lon : ℚ
  value : ℚ
  deriving DecidableEq, Repr

/-- What one `Println` or `Fprintln` call writes.  For a cell the rendering
(conversion of latitude and longitude to `float32`, number formatting) is not
modelled: the record holds the three numbers that are rendered. -/
inductive OutputLine where
  | banner
  | header (h : esriHeaderStruct)
  | cell (c : Cell)
  | elapsed
  deriving DecidableEq, Repr

/-- A row of table `esriData`. -/
structure DataRow where
  cell : Cell
  headerID : Int
  deriving DecidableEq, Repr

/-- A row of table `esriHeader`, with the id the database gave it. -/
structure HeaderRow where
  id : Int
  name : String
  nCols : ℚ
  nRows : Int
  xllCorner : ℚ
  yllCorner : ℚ
  cellSize : ℚ
  noDataValue : ℚ
  deriving DecidableEq, Repr

/-- The database: `nextID` is the id it gives to the next row of `esriHeader`. -/
structure Database where
  nextID : Int
  esriHeader : List HeaderRow
  esriData : List DataRow
  deriving DecidableEq, Repr

/-- The three output devices. `file` is the content of the file at `outFilePath`. -/
structure Devices where
  console : List OutputLine
  file : List OutputLine
  db : Database
  deriving DecidableEq, Repr

/-- The state of a `bufio.Scanner` over the lines of the input file. -/
structure Scanner where
  pending : List String
  text : String
  deriving DecidableEq, Repr

/-- A scanner on a freshly opened file. -/
def NewScanner (lines : List String) : Scanner := ⟨lines, ""⟩

/-- One call of `scanner.Scan()`. -/
def Scanner.Scan (s : Scanner) : Scanner :=
  match s.pending with
  | [] => ⟨[], ""⟩
  | l :: ls => ⟨ls, l⟩

/-! ## Functions of the program -/

/-- The function `boolToInt`. -/
def boolToInt (b : Bool) : Int := if b then 1 else 0

/-- The function `esriDataPersist`: one row inserted in table `esriData`. -/
def esriDataPersist (lat lon value : ℚ) (tableID : Int) (db : Database) : Database :=
  { db with esriData := db.esriData ++ [⟨⟨lat, lon, value⟩, tableID⟩] }

/-- Lines 325 to 335: one cell handed to each enabled device. -/
def emitCell (g : Globals) (tableID : Int) (lat lon value : ℚ) (d : Devices) : Devices :=
  let d := if g.outputToConsole then
    { d with console := d.console ++ [OutputLine.cell ⟨lat, lon, value⟩] } else d
  let d := if g.outputToFile then
    { d with file := d.file ++ [OutputLine.cell ⟨lat, lon, value⟩] } else d
  if g.outputToDb then { d with db := esriDataPersist lat lon value tableID d.db } else d

/-- The inner loop of `esriDataProcess` (lines 320 to 338) over the tokens
`value[0 .. len(value)-1)` still to be read. -/
def colLoop (ParseFloat : String → Option ℚ) (g : Globals) (tableID : Int)
    (cellsize lat : ℚ) : List String → ℚ → Devices → Devices × Option GoPanic
  | [], _, d => (d, none)
  | tok :: toks, lon, d =>
    match ParseFloat tok with
    | none => (d, some (GoPanic.numError tok))
    | some v =>
      colLoop ParseFloat g tableID cellsize lat toks (lon + cellsize)
        (emitCell g tableID lat lon v d)

/-- The outer loop of `esriDataProcess` (lines 308 to 339); the first argument is
the number of iterations still to run. -/
def rowLoop (ParseFloat : String → Option ℚ) (g : Globals) (tableID : Int)
    (ncols xll cellsize : ℚ) : Nat → Scanner → ℚ → Devices → Devices × Option GoPanic
  | 0, _, _, d => (d, none)
  | n + 1, scanner, lat, d =>
    let scanner := scanner.Scan
    let value := strings_Split_space scanner.text
    if goInt ncols ≠ (value.length : Int) - 1 then
      (d, some (GoPanic.errorString "nCols != line length"))
    else
      let lon := xll
      let lat := lat - cellsize
      match colLoop ParseFloat g tableID cellsize lat (value.take (value.length - 1)) lon d with
      | (d, some e) => (d, some e)
      | (d, none) => rowLoop ParseFloat g tableID ncols xll cellsize n scanner lat d

/-- The loop of lines 294 to 296: `n` calls of `scanner.Scan()`. -/
def skipLoop : Nat → Scanner → Scanner
  | 0, s => s
  | n + 1, s => skipLoop n s.Scan

/-- The function `esriDataProcess`, run on the lines `inFile` of the input file and
the devices as `esriHeaderProcess` left them.  It returns the devices and the
panic that stopped it, if any. -/
def esriDataProcess (ParseFloat : String → Option ℚ) (g : Globals) (inFile : List String)
    (esriHeader : esriHeaderStruct) (tableID : Int) (hasNoDataValue : Bool)
    (d : Devices) : Devices × Option GoPanic :=
  let scanner := skipLoop (5 + boolToInt hasNoDataValue).toNat (NewScanner inFile)
  let d := if g.outputToFile then { d with file := [] } else d
  match esriHeader.esriHeaderData with
  | c :: r :: x :: y :: s :: _ =>
    let lat := y.value + r.value * s.value
    rowLoop ParseFloat g tableID c.value x.value s.value (goInt r.value).toNat scanner lat d
  | _ => (d, some GoPanic.indexOutOfRange)

/-- The function `esriHeaderPersist`: one row inserted in table `esriHeader`, holding
the region name, the six header values and, for `nRows`, `int(nrows)`; the result
is the id of that row.  It is called once the header loop has filled the six
slots, so no slot is missing. -/
def esriHeaderPersist (esriHeader : esriHeaderStruct) (db : Database) : Int × Database :=
  (db.nextID,
    { db with nextID := db.nextID + 1,
              esriHeader := db.esriHeader ++
                [⟨db.nextID, esriHeader.esriHeaderName.value, esriHeader.val nCols,
                  goInt (esriHeader.val nRows), esriHeader.val xllCorner,
                  esriHeader.val yllCorner, esriHeader.val cellSize,
                  esriHeader.val noDataValue⟩] })

/-- The body of the loop of `esriHeaderProcess` (lines 239 to 258) for slot `i`. -/
def headerBody (ParseFloat : String → Option ℚ) (i : Nat) (scanner : Scanner)
    (esriHeader : esriHeaderStruct) (hasNoDataValue : Bool) :
    Except GoPanic (Scanner × esriHeaderStruct × Bool) :=
  let scanner := scanner.Scan
  match strings_Fields scanner.text with
  | [] => Except.error GoPanic.indexOutOfRange
  | key :: rest =>
    let parameter := strings_ToLower key
    match esriHeader.esriHeaderData.get? i with
    | none => Except.error GoPanic.indexOutOfRange
    | some slot =>
      if slot.parameter = parameter then
        match rest with
        | [] =>
          Except.error (GoPanic.errorString
            ("invalid esri file format: header parameter value for " ++ slot.parameter ++
              " not found"))
        | tok :: _ =>
          match ParseFloat tok with
          | none => Except.error (GoPanic.numError tok)
          | some value =>
            Except.ok (scanner,
              { esriHeader with
                esriHeaderData := esriHeader.esriHeaderData.set i { slot with value := value } },
              hasNoDataValue)
      else if i = noDataValue then
        Except.ok (scanner,
          { esriHeader with
            esriHeaderData := esriHeader.esriHeaderData.set i { slot with value := -9999 } },
          false)
      else
        Except.error (GoPanic.errorString
          ("invalid esri file format: header parameter " ++ slot.parameter ++ " not found"))

/-- The loop of `esriHeaderProcess` (line 237): `n` iterations starting at slot `i`. -/
def headerLoop (ParseFloat : String → Option ℚ) :
    Nat → Nat → Scanner → esriHeaderStruct → Bool →
      Except GoPanic (Scanner × esriHeaderStruct × Bool)
  | 0, _, scanner, esriHeader, hasNoDataValue => Except.ok (scanner, esriHeader, hasNoDataValue)
  | n + 1, i, scanner, esriHeader, hasNoDataValue =>
    match headerBody ParseFloat i scanner esriHeader hasNoDataValue with
    | Except.error e => Except.error e
    | Except.ok (scanner, esriHeader, hasNoDataValue) =>
      headerLoop ParseFloat n (i + 1) scanner esriHeader hasNoDataValue

/-- What `esriHeaderProcess` leaves behind when it returns. -/
structure HeaderResult where
  esriHeader : esriHeaderStruct
  tableID : Int
  hasNoDataValue : Bool
  devices : Devices
  deriving DecidableEq, Repr

/-- The function `esriHeaderProcess`.  Nothing is written to a device before the
header loop has finished, so a panic leaves the devices as they were. -/
def esriHeaderProcess (ParseFloat : String → Option ℚ) (g : Globals) (inFile : List String)
    (esriHeader : esriHeaderStruct) (d : Devices) : Except GoPanic HeaderResult :=
  match headerLoop ParseFloat 6 0 (NewScanner inFile) esriHeader true with
  | Except.error e => Except.error e
  | Except.ok (_, esriHeader, hasNoDataValue) =>
    let p := if g.outputToDb then esriHeaderPersist esriHeader d.db else (0, d.db)
    let d := { d with db := p.2 }
    let d := if g.outputToConsole then
      { d with console := d.console ++ [OutputLine.header esriHeader] } else d
    let d := if g.outputToFile then { d with file := [OutputLine.header esriHeader] } else d
    Except.ok ⟨esriHeader, p.1, hasNoDataValue, d⟩

/-- The header of region `regionName` holding the six given values. -/
def headerOf (regionName : String) (ncols nrows xll yll cellsize nodata : ℚ) :
    esriHeaderStruct :=
  ⟨⟨"name", regionName⟩,
    [⟨"ncols", ncols⟩, ⟨"nrows", nrows⟩, ⟨"xllcorner", xll⟩, ⟨"yllcorner", yll⟩,
      ⟨"cellsize", cellsize⟩, ⟨"nodata_value", nodata⟩]⟩

/-- A header line that fills the slot called `name` with the value `v`: its first
field, lower-cased, is `name`, and its second field parses to `v`. -/
def ValidHeaderLine (ParseFloat : String → Option ℚ) (name line : String) (v : ℚ) : Prop :=
  ∃ key tok rest, strings_Fields line = key :: tok :: rest ∧ strings_ToLower key = name ∧
    ParseFloat tok = some v

/-- The rune `c'` is `c`, or the ASCII upper-case or lower-case counterpart of `c`:
the counterpart of a letter `a`..`z` or `A`..`Z` is the same letter in the other
case, and every other rune is its own counterpart. -/
def CaseVariant (c c' : Char) : Prop := c' = c ∨ c' = c.toUpper ∨ c' = c.toLower

instance instDecidableCaseVariant (c c' : Char) : Decidable (CaseVariant c c') :=
  inferInstanceAs (Decidable (c' = c ∨ c' = c.toUpper ∨ c' = c.toLower))

/-- The line `line'` is `line` with ASCII letters of its key token replaced by their
upper-case or lower-case counterparts: `line` is leading white space `pre`, the
key token `key`, and a remainder `post` that is empty or starts with white space;
`line'` has the same `pre` and `post` around a rune-wise case variant of `key`. -/
def KeyCaseVariant (line line' : String) : Prop :=
  ∃ pre key key' post : List Char,
    line.data = pre ++ key ++ post ∧ line'.data = pre ++ key' ++ post ∧
    (∀ c ∈ pre, isSpace c = true) ∧ (∀ c ∈ key, isSpace c = false) ∧
    (∀ c, post.head? = some c → isSpace c = true) ∧
    List.Forall₂ CaseVariant key key'

/-- What the header loop looks at in a line: the lower-cased first field and the
fields after it, or nothing when the line has no field. -/
def headerView (line : String) : Option (String × List String) :=
  match strings_Fields line with
  | [] => none
  | key :: rest => some (strings_ToLower key, rest)

/-- The body of the header loop as a function of what it looks at in the line. -/
def headerBodyOn (ParseFloat : String → Option ℚ) (i : Nat)
    (view : Option (String × List String)) (esriHeader : esriHeaderStruct)
    (hasNoDataValue : Bool) : Except GoPanic (esriHeaderStruct × Bool) :=
  match view with
  | none => Except.error GoPanic.indexOutOfRange
  | some (parameter, rest) =>
    match esriHeader.esriHeaderData.get? i with
    | none => Except.error GoPanic.indexOutOfRange
    | some slot =>
      if slot.parameter = parameter then
        match rest with
        | [] =>
          Except.error (GoPanic.errorString
            ("invalid esri file format: header parameter value for " ++ slot.parameter ++
              " not found"))
        | tok :: _ =>
          match ParseFloat tok with
          | none => Except.error (GoPanic.numError tok)
          | some value =>
            Except.ok
              ({ esriHeader with
                esriHeaderData := esriHeader.esriHeaderData.set i { slot with value := value } },
              hasNoDataValue)
      else if i = noDataValue then
        Except.ok
          ({ esriHeader with
            esriHeaderData := esriHeader.esriHeaderData.set i { slot with value := -9999 } },
          false)
      else
        Except.error (GoPanic.errorString
          ("invalid esri file format: header parameter " ++ slot.parameter ++ " not found"))

/-- A parser that accepts no empty string and no string holding white space, as
`strconv.ParseFloat` does. -/
def RejectsBlanks (ParseFloat : String → Option ℚ) : Prop :=
  ∀ s v, ParseFloat s = some v → s.data ≠ [] ∧ ∀ ch ∈ s.data, isSpace ch = false

/-- The header value that `main` builds (lines 394 to 406). -/
def initialHeader (regionName : String) : esriHeaderStruct :=
  ⟨⟨"name", regionName⟩,
    [⟨"ncols", 0⟩, ⟨"nrows", 0⟩, ⟨"xllcorner", 0⟩, ⟨"yllcorner", 0⟩, ⟨"cellsize", 0⟩,
      ⟨"nodata_value", 0⟩]⟩

/-- The parameter name that `main` gives to slot `i` of the header. -/
def slotName (i : Nat) : String :=
  ((initialHeader "").esriHeaderData.getD i ⟨"", 0⟩).parameter

/-- The function `main` from the point where the flags have been parsed into `g`.
The banner is printed before the flags are parsed, when `outputToConsole` still
has its initial value `true`. -/
def main (ParseFloat : String → Option ℚ) (g : Globals) (inFile : List String)
    (d : Devices) : Devices × Option GoPanic :=
  let d := { d with console := d.console ++ [OutputLine.banner] }
  match esriHeaderProcess ParseFloat g inFile (initialHeader g.regionName) d with
  | Except.error e => (d, some e)
  | Except.ok r =>
    match esriDataProcess ParseFloat g inFile r.esriHeader r.tableID r.hasNoDataValue
        r.devices with
    | (d, some e) => (d, some e)
    | (d, none) =>
      (if g.outputToConsole then { d with console := d.console ++ [OutputLine.elapsed] } else d,
        none)

/-- The values of the five command-line flags once `flag.Parse` has run. -/
structure FlagValues where
  dev : String
  inFile : String
  outFile : String
  db : String
  name : String
  deriving DecidableEq, Repr

/-- The flag values when no flag is given on the command line. -/
def defaultFlags : FlagValues := ⟨"con", "", "/tmp/file.out", "", "region"⟩

/-- What `parseFlags` computes: its seven results, the messages written to the
standard error before the usage text, and whether `flag.Usage` is called.  The
usage function prints the usage and exits the process, so when `usage` is `true`
the results are never handed to `main`. -/
structure ParseFlagsResult where
  inFile : String
  outputToConsole : Bool
  outputToFile : Bool
  outputToDb : Bool
  outFile : String
  dbFile : String
  regionName : String
  stderr : List String
  usage : Bool
  deriving DecidableEq, Repr

/-- The function `parseFlags` (lines 173 to 218) on the parsed flag values.  The
named results `outputToConsole`, `outputToFile` and `outputToDb` hide the global
variables of the same names and start as `false`. -/
def parseFlags (f : FlagValues) : ParseFlagsResult :=
  let flagErr := false
  let stderr : List String := []
  let s1 : List String × Bool :=
    if f.inFile = "" then
      (stderr ++ ["-in must be set to a fully qualified pathname for input"], true)
    else (stderr, flagErr)
  let outputToConsole := if strings_Contains f.dev "con" then true else false
  let outputToFile := if strings_Contains f.dev "file" then true else false
  let s2 : List String × Bool :=
    if strings_Contains f.dev "file" then
      (if f.outFile = "" then
        (s1.1 ++ ["when -dev=file, -out must be set to a filename"], true)
      else s1)
    else s1
  let outputToDb := if strings_Contains f.dev "db" then true else false
  let s3 : List String × Bool :=
    if strings_Contains f.dev "db" then
      (if f.db = "" then
        (s2.1 ++ ["when -dev=db, -db must be set to a database"], true)
      else s2)
    else s2
  let s4 : List String × Bool :=
    if strings_Contains f.dev "db" then
      (if f.name = "" then
        (s3.1 ++ ["when -dev=db, -name must be set to identify the region"], true)
      else s3)
    else s3
  let s5 : List String × Bool :=
    if outputToDb = false ∧ outputToFile = false ∧ outputToConsole = false then
      (s4.1 ++ ["-dev must be con, file, and/or db"], true)
    else s4
  ⟨f.inFile, outputToConsole, outputToFile, outputToDb, f.outFile, f.db, f.name, s5.1, s5.2⟩

/-- The process-wide variables as `main` sets them from the results of
`parseFlags` (line 389). -/
def globalsOfFlags (r : ParseFlagsResult) : Globals :=
  ⟨r.outputToConsole, r.outputToFile, r.outputToDb, r.regionName⟩

/-! ## Concrete inputs used in closed examples -/

/-- Console and file output enabled, no database. -/
def exGlobals : Globals := ⟨true, true, false, "region"⟩

/-- Empty console, empty file, empty database. -/
def exDevices : Devices := ⟨[], [], ⟨1, [], []⟩⟩

/-- A header with the given five mandatory values and the default `nodata_value`. -/
def exHeader (ncols nrows xll yll cellsize : ℚ) : esriHeaderStruct :=
  headerOf "region" ncols nrows xll yll cellsize (-9999)

/-- A two by two grid with a `nodata_value` line; every data row ends in a blank. -/
def exGrid : List String :=
  ["ncols 2", "nrows 2", "xllcorner 0", "yllcorner 0", "cellsize 1", "NODATA_value -9999",
    "10 20 ", "30 40 "]

/-- A one-row grid without `nodata_value` line whose row holds three numbers
although `ncols` is 2, and does not end in a blank. -/
def exExtraToken : List String :=
  ["ncols 2", "nrows 1", "xllcorner 0", "yllcorner 0", "cellsize 1", "1 2 3"]

/-- A one-row grid without `nodata_value` line whose row holds exactly `ncols`
numbers and does not end in a blank. -/
def exNoTrailingBlank : List String :=
  ["ncols 2", "nrows 1", "xllcorner 0", "yllcorner 0", "cellsize 1", "1 2"]

/-- The five mandatory lines with `nrows` before `ncols`. -/
def exSwapped : List String :=
  ["nrows 2", "ncols 2", "xllcorner 0", "yllcorner 0", "cellsize 1", "10 20 ", "30 40 "]

/-- A header declaring no column, a negative fractional number of rows and a
negative cell size, followed by one data row. -/
def exNoRangeCheck : List String :=
  ["ncols 0", "nrows -1.5", "xllcorner 0", "yllcorner 0", "cellsize -1", "7 8 "]

/-- A file that ends after the five mandatory lines. -/
def exHeaderOnly : List String :=
  ["ncols 2", "nrows 2", "xllcorner 0", "yllcorner 0", "cellsize 1"]

/-- The five mandatory lines, a blank sixth line, then the data rows. -/
def exBlankSixth : List String :=
  ["ncols 2", "nrows 2", "xllcorner 0", "yllcorner 0", "cellsize 1", "", "10 20 ", "30 40 "]

/-- A two by two grid without `nodata_value` line: the sixth line is the first
data row. -/
def exNoNodata : List String :=
  ["ncols 2", "nrows 2", "xllcorner 0", "yllcorner 0", "cellsize 1", "10 20 ", "30 40 "]

/-- What `esriHeaderProcess` returns on `exNoNodata` when `main` calls it. -/
def exNoNodataResult : HeaderResult :=
  ⟨exHeader 2 2 0 0 1, 0, false,
    ⟨[OutputLine.banner, OutputLine.header (exHeader 2 2 0 0 1)],
      [OutputLine.header (exHeader 2 2 0 0 1)], ⟨1, [], []⟩⟩⟩

/-- The grid `exGrid` with the letters of its header keys in other cases. -/
def exGridUpper : List String :=
  ["NCOLS 2", "NRows 2", "XLLCORNER 0", "yllCorner 0", "CellSize 1", "nodata_VALUE -9999",
    "10 20 ", "30 40 "]

/-- A header whose `nrows` line has no value. -/
def exMissingValue : List String :=
  ["ncols 2", "nrows", "xllcorner 0", "yllcorner 0", "cellsize 1", "10 20 ", "30 40 "]

/-- A header whose `nrows` line has a value that is not a number. -/
def exBadValue : List String :=
  ["ncols 2", "nrows two", "xllcorner 0", "yllcorner 0", "cellsize 1", "10 20 ", "30 40 "]

/-- A file of three lines. -/
def exThreeLines : List String :=
  ["ncols 2", "nrows 2", "xllcorner 0"]

/-- A one-row grid whose row holds exactly `ncols` tokens, the second of which is
not a number; the row does not end in a blank. -/
def exBadToken : List String :=
  ["ncols 2", "nrows 1", "xllcorner 0", "yllcorner 0", "cellsize 1", "1 x"]

/-- The same grid with a blank at the end of the row. -/
def exBadTokenBlank : List String :=
  ["ncols 2", "nrows 1", "xllcorner 0", "yllcorner 0", "cellsize 1", "1 x "]

/-- The grid `exGrid` with other texts after the last blank of its data rows. -/
def exGridJunk : List String :=
  ["ncols 2", "nrows 2", "xllcorner 0", "yllcorner 0", "cellsize 1", "NODATA_value -9999",
    "10 20 junk", "30 40 99"]

/-- A data row is accepted for `ncols` columns when splitting it on the single space
gives exactly `ncols + 1` fields of which all but the last parse. -/
def RowAccepted (ParseFloat : String → Option ℚ) (ncols : ℚ) (line : String) : Prop :=
  ((strings_Split_space line).length : Int) = goInt ncols + 1 ∧
  ∀ tok ∈ (strings_Split_space line).dropLast, ∃ v, ParseFloat tok = some v

/-- The flags `-in=/abc.asc -dev=con,file -out=`. -/
def exFlagsNoOut : FlagValues := ⟨"con,file", "/abc.asc", "", "", "region"⟩

/-- A header declaring `ncols 1.5` and `nrows 2.5`, and two data rows of one value. -/
def exFractional : List String :=
  ["ncols 1.5", "nrows 2.5", "xllcorner 0", "yllcorner 0", "cellsize 1", "7 ", "8 "]

/-- A header declaring `ncols -1` and `nrows -1`, and one data row. -/
def exNegative : List String :=
  ["ncols -1", "nrows -1", "xllcorner 0", "yllcorner 0", "cellsize 1", "7 8 "]

/-- A header declaring more rows than a 64-bit integer can count. -/
def exHuge : List String :=
  ["ncols 2", "nrows 1e19", "xllcorner 0", "yllcorner 0", "cellsize 1", "7 8 "]

/-- The two by two grid without `nodata_value` line, the key of its first line
written with the long s, U+017F, in place of the letter `s`. -/
def exLongS : List String :=
  ["ncolſ 2", "nrows 2", "xllcorner 0", "yllcorner 0", "cellsize 1", "10 20 ", "30 40 "]

/-- The file `exLongS` with the letters of its first line in upper case. -/
def exLongSUpper : List String :=
  ["NCOLS 2", "nrows 2", "xllcorner 0", "yllcorner 0", "cellsize 1", "10 20 ", "30 40 "]

/-! ## The sequence of cells of a run -/

/-- The cells the inner loop emits for the tokens of one row, and the panic that
stops it, if any. -/
def colCells (ParseFloat : String → Option ℚ) (cellsize lat : ℚ) :
    List String → ℚ → List Cell × Option GoPanic
  | [], _ => ([], none)
  | tok :: toks, lon =>
    match ParseFloat tok with
    | none => ([], some (GoPanic.numError tok))
    | some v =>
      (⟨lat, lon, v⟩ :: (colCells ParseFloat cellsize lat toks (lon + cellsize)).1,
        (colCells ParseFloat cellsize lat toks (lon + cellsize)).2)

/-- The cells the outer loop emits, and the panic that stops it, if any. -/
def rowCells (ParseFloat : String → Option ℚ) (ncols xll cellsize : ℚ) :
    Nat → Scanner → ℚ → List Cell × Option GoPanic
  | 0, _, _ => ([], none)
  | n + 1, scanner, lat =>
    let value := strings_Split_space scanner.Scan.text
    if goInt ncols ≠ (value.length : Int) - 1 then
      ([], some (GoPanic.errorString "nCols != line length"))
    else
      let row := colCells ParseFloat cellsize (lat - cellsize)
        (value.take (value.length - 1)) xll
      match row.2 with
      | some e => (row.1, some e)
      | none =>
        (row.1 ++ (rowCells ParseFloat ncols xll cellsize n scanner.Scan (lat - cellsize)).1,
          (rowCells ParseFloat ncols xll cellsize n scanner.Scan (lat - cellsize)).2)

/-- The outer loop of `esriDataProcess` run on the texts of the lines it reads, one
per iteration, instead of on a scanner. -/
def rowLoopOn (ParseFloat : String → Option ℚ) (g : Globals) (tableID : Int)
    (ncols xll cellsize : ℚ) : List String → ℚ → Devices → Devices × Option GoPanic
  | [], _, d => (d, none)
  | line :: lines, lat, d =>
    let value := strings_Split_space line
    if goInt ncols ≠ (value.length : Int) - 1 then
      (d, some (GoPanic.errorString "nCols != line length"))
    else
      let lon := xll
      let lat := lat - cellsize
      match colLoop ParseFloat g tableID cellsize lat (value.take (value.length - 1)) lon d with
      | (d, some e) => (d, some e)
      | (d, none) => rowLoopOn ParseFloat g tableID ncols xll cellsize lines lat d

/-- The `n` consecutive lines of the file starting at index `first` (counted from
zero); a line past the end of the file is empty. -/
def dataRows (inFile : List String) (first n : Nat) : List String :=
  (List.range n).map (fun i => inFile.getD (first + i) "")

/-- A list of cells handed to the devices one after the other. -/
def emitCells (g : Globals) (tableID : Int) (cells : List Cell) (d : Devices) : Devices :=
  cells.foldl (fun d c => emitCell g tableID c.lat c.lon c.value d) d

/-- The devices `out` are the devices `d` after exactly the cells `cells` have been
handed, in this order, to every enabled device: appended to the console, written
to the output file created anew, inserted in table `esriData` under `tableID`. -/
def Receives (g : Globals) (tableID : Int) (d out : Devices) (cells : List Cell) : Prop :=
  out.console = d.console ++ (if g.outputToConsole then cells.map OutputLine.cell else []) ∧
  out.file = (if g.outputToFile then cells.map OutputLine.cell else d.file) ∧
  out.db.esriData =
    d.db.esriData ++ (if g.outputToDb then cells.map (fun c => DataRow.mk c tableID) else []) ∧
  out.db.esriHeader = d.db.esriHeader ∧ out.db.nextID = d.db.nextID

/-! ## Lemmas on the loops -/

theorem emitCells_nil (g : Globals) (tableID : Int) (d : Devices) :
    emitCells g tableID [] d = d := rfl

theorem emitCells_cons (g : Globals) (tableID : Int) (c : Cell) (cells : List Cell)
    (d : Devices) :
    emitCells g tableID (c :: cells) d =
      emitCells g tableID cells (emitCell g tableID c.lat c.lon c.value d) := rfl

theorem emitCells_append (g : Globals) (tableID : Int) (a b : List Cell) (d : Devices) :
    emitCells g tableID (a ++ b) d = emitCells g tableID b (emitCells g tableID a d) := by
  simp [emitCells, List.foldl_append]

theorem emitCells_console (g : Globals) (tableID : Int) (cells : List Cell) (d : Devices) :
    (emitCells g tableID cells d).console =
      d.console ++ (if g.outputToConsole then cells.map OutputLine.cell else []) := by
  induction cells generalizing d with
  | nil => simp [emitCells_nil]
  | cons c cs ih =>
    rw [emitCells_cons, ih]
    cases hc : g.outputToConsole <;> cases hf : g.outputToFile <;> cases hd : g.outputToDb <;>
      simp [emitCell, hc, hf, hd]

theorem emitCells_file (g : Globals) (tableID : Int) (cells : List Cell) (d : Devices) :
    (emitCells g tableID cells d).file =
      d.file ++ (if g.outputToFile then cells.map OutputLine.cell else []) := by
  induction cells generalizing d with
  | nil => simp [emitCells_nil]
  | cons c cs ih =>
    rw [emitCells_cons, ih]
    cases hc : g.outputToConsole <;> cases hf : g.outputToFile <;> cases hd : g.outputToDb <;>
      simp [emitCell, hc, hf, hd]

theorem emitCells_esriData (g : Globals) (tableID : Int) (cells : List Cell) (d : Devices) :
    (emitCells g tableID cells d).db.esriData =
      d.db.esriData ++
        (if g.outputToDb then cells.map (fun c => DataRow.mk c tableID) else []) := by
  induction cells generalizing d with
  | nil => simp [emitCells_nil]
  | cons c cs ih =>
    rw [emitCells_cons, ih]
    cases hc : g.outputToConsole <;> cases hf : g.outputToFile <;> cases hd : g.outputToDb <;>
      simp [emitCell, esriDataPersist, hc, hf, hd]

theorem emitCells_db_rest (g : Globals) (tableID : Int) (cells : List Cell) (d : Devices) :
    (emitCells g tableID cells d).db.esriHeader = d.db.esriHeader ∧
      (emitCells g tableID cells d).db.nextID = d.db.nextID := by
  induction cells generalizing d with
  | nil => simp [emitCells_nil]
  | cons c cs ih =>
    rw [emitCells_cons]
    refine ⟨(ih _).1.trans ?_, (ih _).2.trans ?_⟩ <;>
    cases hc : g.outputToConsole <;> cases hf : g.outputToFile <;> cases hd : g.outputToDb <;>
      simp [emitCell, esriDataPersist, hc, hf, hd]

/-- The inner loop hands the cells of `colCells` to the devices. -/
theorem colLoop_eq (ParseFloat : String → Option ℚ) (g : Globals) (tableID : Int)
    (cellsize lat : ℚ) (toks : List String) (lon : ℚ) (d : Devices) :
    colLoop ParseFloat g tableID cellsize lat toks lon d =
      (emitCells g tableID (colCells ParseFloat cellsize lat toks lon).1 d,
        (colCells ParseFloat cellsize lat toks lon).2) := by
  induction toks generalizing lon d with
  | nil => rfl
  | cons tok toks ih =>
    cases hp : ParseFloat tok with
    | none => simp [colLoop, colCells, hp, emitCells_nil]
    | some v => simp [colLoop, colCells, hp, ih, emitCells_cons]

/-- The outer loop hands the cells of `rowCells` to the devices. -/
theorem rowLoop_eq (ParseFloat : String → Option ℚ) (g : Globals) (tableID : Int)
    (ncols xll cellsize : ℚ) (n : Nat) (scanner : Scanner) (lat : ℚ) (d : Devices) :
    rowLoop ParseFloat g tableID ncols xll cellsize n scanner lat d =
      (emitCells g tableID (rowCells ParseFloat ncols xll cellsize n scanner lat).1 d,
        (rowCells ParseFloat ncols xll cellsize n scanner lat).2) := by
  induction n generalizing scanner lat d with
  | zero => rfl
  | succ n ih =>
    unfold rowLoop rowCells
    simp only []
    split_ifs with hw
    · rfl
    · rw [colLoop_eq]
      cases hrow : (colCells ParseFloat cellsize (lat - cellsize)
          ((strings_Split_space scanner.Scan.text).take
            ((strings_Split_space scanner.Scan.text).length - 1)) xll).2 with
      | some e => simp
      | none => simp [ih, emitCells_append]

/-- The inner loop emits at most one cell per token. -/
theorem colCells_length_le (ParseFloat : String → Option ℚ) (cellsize lat : ℚ)
    (toks : List String) (lon : ℚ) :
    (colCells ParseFloat cellsize lat toks lon).1.length ≤ toks.length := by
  induction toks generalizing lon with
  | nil => simp [colCells]
  | cons tok toks ih =>
    cases hp : ParseFloat tok with
    | none => simp [colCells, hp]
    | some v => simpa [colCells, hp] using ih (lon + cellsize)

/-- When the inner loop is not stopped it emits one cell per token. -/
theorem colCells_length_of_ok (ParseFloat : String → Option ℚ) (cellsize lat : ℚ)
    (toks : List String) (lon : ℚ)
    (h : (colCells ParseFloat cellsize lat toks lon).2 = none) :
    (colCells ParseFloat cellsize lat toks lon).1.length = toks.length := by
  induction toks generalizing lon with
  | nil => simp [colCells]
  | cons tok toks ih =>
    cases hp : ParseFloat tok with
    | none => simp [colCells, hp] at h
    | some v =>
      simp only [colCells, hp] at h
      simpa [colCells, hp] using ih (lon + cellsize) h

/-- The `k`-th cell of a row carries the row latitude, the longitude reached after
`k` additions of the cell size, and the parse of the `k`-th token. -/
theorem colCells_get (ParseFloat : String → Option ℚ) (cellsize lat : ℚ)
    (toks : List String) (lon : ℚ) (k : Nat) (cell : Cell)
    (h : (colCells ParseFloat cellsize lat toks lon).1[k]? = some cell) :
    cell.lat = lat ∧ cell.lon = lon + k * cellsize ∧
      ∃ tok, toks[k]? = some tok ∧ ParseFloat tok = some cell.value := by
  induction toks generalizing lon k with
  | nil => simp [colCells] at h
  | cons tok toks ih =>
    cases hp : ParseFloat tok with
    | none => simp [colCells, hp] at h
    | some v =>
      simp only [colCells, hp] at h
      cases k with
      | zero =>
        simp only [List.getElem?_cons_zero, Option.some.injEq] at h
        subst h
        simp [hp]
      | succ k =>
        simp only [List.getElem?_cons_succ] at h
        obtain ⟨h1, h2, h3⟩ := ih (lon + cellsize) k h
        refine ⟨h1, ?_, by simpa using h3⟩
        rw [h2]; push_cast; ring

/-- Coordinates of the cell at position `r * ncols + c` of the outer loop. -/
theorem rowCells_coordinates (ParseFloat : String → Option ℚ) (ncols xll cellsize : ℚ)
    (n : Nat) (scanner : Scanner) (lat : ℚ) (r c : Nat) (cell : Cell)
    (hc : c < (goInt ncols).toNat)
    (h : (rowCells ParseFloat ncols xll cellsize n scanner lat).1[r * (goInt ncols).toNat + c]?
      = some cell) :
    cell.lat = lat - (r + 1) * cellsize ∧ cell.lon = xll + c * cellsize := by
  induction n generalizing scanner lat r with
  | zero => simp [rowCells] at h
  | succ n ih =>
    unfold rowCells at h
    simp only [] at h
    split_ifs at h with hw
    · simp at h
    · have hN : (goInt ncols).toNat = (strings_Split_space scanner.Scan.text).length - 1 := by
        push_neg at hw
        omega
      have hlen := colCells_length_le ParseFloat cellsize (lat - cellsize)
        ((strings_Split_space scanner.Scan.text).take
          ((strings_Split_space scanner.Scan.text).length - 1)) xll
      have htake : ((strings_Split_space scanner.Scan.text).take
          ((strings_Split_space scanner.Scan.text).length - 1)).length = (goInt ncols).toNat := by
        rw [List.length_take, hN]; omega
      rw [htake] at hlen
      cases hrow : (colCells ParseFloat cellsize (lat - cellsize)
          ((strings_Split_space scanner.Scan.text).take
            ((strings_Split_space scanner.Scan.text).length - 1)) xll).2 with
      | some e =>
        rw [hrow] at h
        simp only [] at h
        cases r with
        | zero =>
          simp only [Nat.zero_mul, Nat.zero_add] at h
          obtain ⟨h1, h2, -⟩ := colCells_get _ _ _ _ _ _ _ h
          exact ⟨by rw [h1]; push_cast; ring, h2⟩
        | succ r =>
          have hge : (colCells ParseFloat cellsize (lat - cellsize)
              ((strings_Split_space scanner.Scan.text).take
                ((strings_Split_space scanner.Scan.text).length - 1)) xll).1.length
              ≤ (r + 1) * (goInt ncols).toNat + c := by
            have : (goInt ncols).toNat ≤ (r + 1) * (goInt ncols).toNat :=
              Nat.le_mul_of_pos_left _ (Nat.succ_pos r)
            omega
          rw [List.getElem?_eq_none hge] at h
          exact absurd h (by simp)
      | none =>
        rw [hrow] at h
        simp only [] at h
        have hfull := colCells_length_of_ok ParseFloat cellsize (lat - cellsize) _ xll hrow
        rw [htake] at hfull
        cases r with
        | zero =>
          simp only [Nat.zero_mul, Nat.zero_add] at h
          rw [List.getElem?_append_left (by omega)] at h
          obtain ⟨h1, h2, -⟩ := colCells_get _ _ _ _ _ _ _ h
          exact ⟨by rw [h1]; push_cast; ring, h2⟩
        | succ r =>
          have hidx : (r + 1) * (goInt ncols).toNat + c
              = r * (goInt ncols).toNat + c + (goInt ncols).toNat := by ring
          rw [hidx, List.getElem?_append_right (by omega), hfull, Nat.add_sub_cancel] at h
          obtain ⟨h1, h2⟩ := ih scanner.Scan (lat - cellsize) r h
          exact ⟨by rw [h1]; push_cast; ring, h2⟩

/-- What `esriDataProcess` does, in terms of the cells of `rowCells`. -/
theorem esriDataProcess_eq (ParseFloat : String → Option ℚ) (g : Globals)
    (inFile : List String) (name : esriHeaderNameStruct) (c r x y s : esriHeaderDatum)
    (rest : List esriHeaderDatum) (tableID : Int) (hasNoDataValue : Bool) (d : Devices) :
    esriDataProcess ParseFloat g inFile ⟨name, c :: r :: x :: y :: s :: rest⟩ tableID
        hasNoDataValue d =
      (emitCells g tableID
          (rowCells ParseFloat c.value x.value s.value (goInt r.value).toNat
            (skipLoop (5 + boolToInt hasNoDataValue).toNat (NewScanner inFile))
            (y.value + r.value * s.value)).1
          (if g.outputToFile then { d with file := [] } else d),
        (rowCells ParseFloat c.value x.value s.value (goInt r.value).toNat
            (skipLoop (5 + boolToInt hasNoDataValue).toNat (NewScanner inFile))
            (y.value + r.value * s.value)).2) := by
  simp only [esriDataProcess, rowLoop_eq]

/-- The devices after `emitCells` have received exactly these cells. -/
theorem receives_emitCells (g : Globals) (tableID : Int) (cells : List Cell) (d : Devices) :
    Receives g tableID d
      (emitCells g tableID cells (if g.outputToFile then { d with file := [] } else d))
      cells := by
  refine ⟨?_, ?_, ?_, ?_, ?_⟩
  · rw [emitCells_console]; cases g.outputToFile <;> simp
  · rw [emitCells_file]; cases g.outputToFile <;> simp
  · rw [emitCells_esriData]; cases g.outputToFile <;> simp
  · rw [(emitCells_db_rest _ _ _ _).1]; cases g.outputToFile <;> simp
  · rw [(emitCells_db_rest _ _ _ _).2]; cases g.outputToFile <;> simp

/-- A header too short to be read leaves the devices with no cell. -/
theorem receives_nil (g : Globals) (tableID : Int) (d : Devices) :
    Receives g tableID d (if g.outputToFile then { d with file := [] } else d) [] := by
  have h := receives_emitCells g tableID [] d
  rwa [emitCells_nil] at h

/-- After `n` scans of a fresh scanner the lines not yet read are those from
index `n` on. -/
theorem skipLoop_pending (n : Nat) (s : Scanner) :
    (skipLoop n s).pending = s.pending.drop n := by
  induction n generalizing s with
  | zero => simp [skipLoop]
  | succ n ih =>
    rw [skipLoop, ih]
    cases hp : s.pending with
    | nil => simp [Scanner.Scan, hp]
    | cons l ls => simp [Scanner.Scan, hp]

/-- The text of the next scan is the first line not yet read, or empty. -/
theorem scan_text (s : Scanner) : s.Scan.text = s.pending.getD 0 "" := by
  cases hp : s.pending <;> simp [Scanner.Scan, hp]

/-- A scan removes the first line not yet read. -/
theorem scan_pending (s : Scanner) : s.Scan.pending = s.pending.drop 1 := by
  cases hp : s.pending <;> simp [Scanner.Scan, hp]

/-- Skipping one more line is one more scan. -/
theorem skipLoop_succ (n : Nat) (s : Scanner) : skipLoop (n + 1) s = (skipLoop n s).Scan := by
  induction n generalizing s with
  | zero => rfl
  | succ n ih => rw [skipLoop, ih]; rfl

/-- Reading position `r` of a list from which `k` elements were dropped. -/
theorem getD_drop_line (l : List String) (k r : Nat) :
    (l.drop k).getD r "" = l.getD (k + r) "" := by
  simp [List.getD_eq_getElem?_getD, List.getElem?_drop]

/-- A run of the outer loop that is not stopped emits `n * ncols` cells, and the one
at position `r * ncols + c` carries the parse of field `c` of the `r`-th line read. -/
theorem rowCells_of_ok (ParseFloat : String → Option ℚ) (ncols xll cellsize : ℚ)
    (n : Nat) (scanner : Scanner) (lat : ℚ)
    (h : (rowCells ParseFloat ncols xll cellsize n scanner lat).2 = none) :
    (rowCells ParseFloat ncols xll cellsize n scanner lat).1.length
        = n * (goInt ncols).toNat ∧
      ∀ r c : Nat, r < n → c < (goInt ncols).toNat →
        ∃ cell tok,
          (rowCells ParseFloat ncols xll cellsize n scanner lat).1[r * (goInt ncols).toNat + c]?
            = some cell ∧
          (strings_Split_space (scanner.pending.getD r ""))[c]? = some tok ∧
          ParseFloat tok = some cell.value := by
  induction n generalizing scanner lat with
  | zero => simp [rowCells]
  | succ n ih =>
    unfold rowCells at h ⊢
    simp only [] at h ⊢
    split_ifs at h ⊢ with hw
    · have hN : (goInt ncols).toNat = (strings_Split_space scanner.Scan.text).length - 1 := by
        push_neg at hw
        omega
      have htake : ((strings_Split_space scanner.Scan.text).take
          ((strings_Split_space scanner.Scan.text).length - 1)).length = (goInt ncols).toNat := by
        rw [List.length_take, hN]; omega
      cases hrow : (colCells ParseFloat cellsize (lat - cellsize)
          ((strings_Split_space scanner.Scan.text).take
            ((strings_Split_space scanner.Scan.text).length - 1)) xll).2 with
      | some e => rw [hrow] at h; simp at h
      | none =>
        rw [hrow] at h
        simp only [] at h ⊢
        have hfull := colCells_length_of_ok ParseFloat cellsize (lat - cellsize) _ xll hrow
        rw [htake] at hfull
        obtain ⟨ihlen, ihget⟩ := ih scanner.Scan (lat - cellsize) h
        refine ⟨?_, ?_⟩
        · rw [List.length_append, hfull, ihlen]; ring
        · intro r c hr hc
          cases r with
          | zero =>
            simp only [Nat.zero_mul, Nat.zero_add]
            rw [List.getElem?_append_left (by omega)]
            have hlt : c < (colCells ParseFloat cellsize (lat - cellsize)
                ((strings_Split_space scanner.Scan.text).take
                  ((strings_Split_space scanner.Scan.text).length - 1)) xll).1.length := by
              omega
            have hcell := List.getElem?_eq_getElem hlt
            obtain ⟨-, -, tok, htok, hp⟩ := colCells_get _ _ _ _ _ _ _ hcell
            refine ⟨_, tok, hcell, ?_, hp⟩
            rw [List.getElem?_take] at htok
            rw [← scan_text]
            split_ifs at htok with hlt2
            exact htok
          | succ r =>
            have hidx : (r + 1) * (goInt ncols).toNat + c
                = r * (goInt ncols).toNat + c + (goInt ncols).toNat := by ring
            rw [hidx, List.getElem?_append_right (by omega), hfull, Nat.add_sub_cancel]
            obtain ⟨cell, tok, h1, h2, h3⟩ := ihget r c (by omega) hc
            refine ⟨cell, tok, h1, ?_, h3⟩
            rw [scan_pending, getD_drop_line, Nat.add_comm] at h2
            exact h2

/-- With no column to read, the outer loop emits no cell. -/
theorem rowCells_nil_of_no_columns (ParseFloat : String → Option ℚ) (ncols xll cellsize : ℚ)
    (n : Nat) (scanner : Scanner) (lat : ℚ) (h0 : (goInt ncols).toNat = 0) :
    (rowCells ParseFloat ncols xll cellsize n scanner lat).1 = [] := by
  induction n generalizing scanner lat with
  | zero => rfl
  | succ n ih =>
    unfold rowCells
    simp only []
    split_ifs with hw
    · rfl
    · have hN : (strings_Split_space scanner.Scan.text).length - 1 = 0 := by
        push_neg at hw
        omega
      rw [hN, List.take_zero]
      simp only [colCells, List.nil_append]
      exact ih scanner.Scan (lat - cellsize)

/-- A run of the outer loop that emits a cell has at least one row and one column. -/
theorem rowCells_nonempty (ParseFloat : String → Option ℚ) (ncols xll cellsize : ℚ)
    (n : Nat) (scanner : Scanner) (lat : ℚ)
    (h : (rowCells ParseFloat ncols xll cellsize n scanner lat).1 ≠ []) :
    1 ≤ n ∧ 1 ≤ goInt ncols := by
  constructor
  · cases n with
    | zero => exact absurd rfl h
    | succ n => omega
  · by_contra hc
    apply h
    apply rowCells_nil_of_no_columns
    omega

/-! ## Lemmas on the header loop -/

/-- The text scanned after `i` earlier scans is line `i` of the file, or empty. -/
theorem skipLoop_scan_text (inFile : List String) (i : Nat) :
    (skipLoop i (NewScanner inFile)).Scan.text = inFile.getD i "" := by
  rw [scan_text, skipLoop_pending, NewScanner, getD_drop_line, Nat.add_zero]

/-- One iteration on a valid line stores the parsed value in its own slot. -/
theorem headerBody_valid (ParseFloat : String → Option ℚ) (i : Nat) (scanner : Scanner)
    (esriHeader : esriHeaderStruct) (b : Bool) (slot : esriHeaderDatum) (v : ℚ)
    (hslot : esriHeader.esriHeaderData.get? i = some slot)
    (hv : ValidHeaderLine ParseFloat slot.parameter scanner.Scan.text v) :
    headerBody ParseFloat i scanner esriHeader b =
      Except.ok (scanner.Scan,
        { esriHeader with
          esriHeaderData := esriHeader.esriHeaderData.set i { slot with value := v } }, b) := by
  obtain ⟨key, tok, rest, hf, hk, hp⟩ := hv
  simp only [headerBody, hf, hslot, hk, hp, if_true]

/-- One iteration on a blank line, or past the end of the file, panics. -/
theorem headerBody_blank (ParseFloat : String → Option ℚ) (i : Nat) (scanner : Scanner)
    (esriHeader : esriHeaderStruct) (b : Bool)
    (hf : strings_Fields scanner.Scan.text = []) :
    headerBody ParseFloat i scanner esriHeader b = Except.error GoPanic.indexOutOfRange := by
  simp only [headerBody, hf]

/-- One iteration on a line whose key is not the name of the slot: the default for
the optional slot, a panic for the others. -/
theorem headerBody_mismatch (ParseFloat : String → Option ℚ) (i : Nat) (scanner : Scanner)
    (esriHeader : esriHeaderStruct) (b : Bool) (slot : esriHeaderDatum) (key : String)
    (rest : List String)
    (hslot : esriHeader.esriHeaderData.get? i = some slot)
    (hf : strings_Fields scanner.Scan.text = key :: rest)
    (hk : slot.parameter ≠ strings_ToLower key) :
    headerBody ParseFloat i scanner esriHeader b =
      if i = noDataValue then
        Except.ok (scanner.Scan,
          { esriHeader with
            esriHeaderData := esriHeader.esriHeaderData.set i { slot with value := -9999 } },
          false)
      else
        Except.error (GoPanic.errorString
          ("invalid esri file format: header parameter " ++ slot.parameter ++ " not found")) := by
  simp only [headerBody, hf, hslot, hk, if_false]

/-- What is known when one iteration returns. -/
theorem headerBody_ok_inv (ParseFloat : String → Option ℚ) (i : Nat) (scanner : Scanner)
    (esriHeader : esriHeaderStruct) (b : Bool) (res : Scanner × esriHeaderStruct × Bool)
    (hok : headerBody ParseFloat i scanner esriHeader b = Except.ok res) :
    ∃ slot, esriHeader.esriHeaderData.get? i = some slot ∧ res.1 = scanner.Scan ∧
      ((∃ v, ValidHeaderLine ParseFloat slot.parameter scanner.Scan.text v ∧
          res.2.1 = { esriHeader with
            esriHeaderData := esriHeader.esriHeaderData.set i { slot with value := v } } ∧
          res.2.2 = b) ∨
        (i = noDataValue ∧
          (∃ key rest, strings_Fields scanner.Scan.text = key :: rest ∧
            slot.parameter ≠ strings_ToLower key) ∧
          res.2.1 = { esriHeader with
            esriHeaderData := esriHeader.esriHeaderData.set i { slot with value := -9999 } } ∧
          res.2.2 = false)) := by
  unfold headerBody at hok
  simp only [] at hok
  cases hf : strings_Fields scanner.Scan.text with
  | nil => rw [hf] at hok; simp at hok
  | cons key rest =>
    rw [hf] at hok
    simp only [] at hok
    cases hslot : esriHeader.esriHeaderData.get? i with
    | none => rw [hslot] at hok; simp at hok
    | some slot =>
      rw [hslot] at hok
      simp only [] at hok
      refine ⟨slot, rfl, ?_⟩
      by_cases hk : slot.parameter = strings_ToLower key
      · rw [if_pos hk] at hok
        cases rest with
        | nil => simp at hok
        | cons tok rest =>
          simp only [] at hok
          cases hp : ParseFloat tok with
          | none => rw [hp] at hok; simp at hok
          | some v =>
            rw [hp] at hok
            simp only [Except.ok.injEq] at hok
            subst hok
            exact ⟨rfl, Or.inl ⟨v, ⟨key, tok, rest, hf, hk.symm, hp⟩, rfl, rfl⟩⟩
      · rw [if_neg hk] at hok
        by_cases h5 : i = noDataValue
        · rw [if_pos h5] at hok
          simp only [Except.ok.injEq] at hok
          subst hok
          exact ⟨rfl, Or.inr ⟨h5, ⟨key, rest, rfl, hk⟩, rfl, rfl⟩⟩
        · rw [if_neg h5] at hok
          simp at hok

/-- A loop that returns has run its first iteration and then the rest. -/
theorem headerLoop_ok_inv (ParseFloat : String → Option ℚ) (n i : Nat) (scanner : Scanner)
    (esriHeader : esriHeaderStruct) (b : Bool) (res : Scanner × esriHeaderStruct × Bool)
    (hok : headerLoop ParseFloat (n + 1) i scanner esriHeader b = Except.ok res) :
    ∃ mid, headerBody ParseFloat i scanner esriHeader b = Except.ok mid ∧
      headerLoop ParseFloat n (i + 1) mid.1 mid.2.1 mid.2.2 = Except.ok res := by
  unfold headerLoop at hok
  cases hb : headerBody ParseFloat i scanner esriHeader b with
  | error e => rw [hb] at hok; simp at hok
  | ok mid =>
    rw [hb] at hok
    exact ⟨mid, rfl, hok⟩

/-- One iteration of the loop on a valid line. -/
theorem headerLoop_step_valid (ParseFloat : String → Option ℚ) (n i : Nat)
    (inFile : List String) (esriHeader : esriHeaderStruct) (b : Bool)
    (slot : esriHeaderDatum) (v : ℚ)
    (hslot : esriHeader.esriHeaderData.get? i = some slot)
    (hv : ValidHeaderLine ParseFloat slot.parameter (inFile.getD i "") v) :
    headerLoop ParseFloat (n + 1) i (skipLoop i (NewScanner inFile)) esriHeader b =
      headerLoop ParseFloat n (i + 1) (skipLoop (i + 1) (NewScanner inFile))
        { esriHeader with
          esriHeaderData := esriHeader.esriHeaderData.set i { slot with value := v } } b := by
  rw [← skipLoop_scan_text] at hv
  rw [headerLoop, headerBody_valid ParseFloat i _ esriHeader b slot v hslot hv, skipLoop_succ]

/-- Five valid mandatory lines take the loop to its sixth iteration with the five
parsed values stored in order. -/
theorem headerLoop_mandatory (ParseFloat : String → Option ℚ) (inFile : List String)
    (regionName : String) (v0 v1 v2 v3 v4 : ℚ)
    (h0 : ValidHeaderLine ParseFloat "ncols" (inFile.getD 0 "") v0)
    (h1 : ValidHeaderLine ParseFloat "nrows" (inFile.getD 1 "") v1)
    (h2 : ValidHeaderLine ParseFloat "xllcorner" (inFile.getD 2 "") v2)
    (h3 : ValidHeaderLine ParseFloat "yllcorner" (inFile.getD 3 "") v3)
    (h4 : ValidHeaderLine ParseFloat "cellsize" (inFile.getD 4 "") v4) :
    headerLoop ParseFloat 6 0 (NewScanner inFile) (initialHeader regionName) true =
      headerLoop ParseFloat 1 5 (skipLoop 5 (NewScanner inFile))
        (headerOf regionName v0 v1 v2 v3 v4 0) true := by
  have e0 := headerLoop_step_valid ParseFloat 5 0 inFile (initialHeader regionName) true
    ⟨"ncols", 0⟩ v0 rfl h0
  have e1 := headerLoop_step_valid ParseFloat 4 1 inFile (headerOf regionName v0 0 0 0 0 0) true
    ⟨"nrows", 0⟩ v1 rfl h1
  have e2 := headerLoop_step_valid ParseFloat 3 2 inFile (headerOf regionName v0 v1 0 0 0 0) true
    ⟨"xllcorner", 0⟩ v2 rfl h2
  have e3 := headerLoop_step_valid ParseFloat 2 3 inFile (headerOf regionName v0 v1 v2 0 0 0) true
    ⟨"yllcorner", 0⟩ v3 rfl h3
  have e4 := headerLoop_step_valid ParseFloat 1 4 inFile (headerOf regionName v0 v1 v2 v3 0 0) true
    ⟨"cellsize", 0⟩ v4 rfl h4
  exact e0.trans (e1.trans (e2.trans (e3.trans e4)))

/-- Storing a value in a slot does not change the names of the slots. -/
theorem map_parameter_set (l : List esriHeaderDatum) (i : Nat) (slot : esriHeaderDatum)
    (v : ℚ) (hslot : l.get? i = some slot) :
    (l.set i { slot with value := v }).map (fun s => s.parameter) =
      l.map (fun s => s.parameter) := by
  induction l generalizing i with
  | nil => simp
  | cons a l ih =>
    cases i with
    | zero =>
      simp only [List.get?_cons_zero, Option.some.injEq] at hslot
      subst hslot
      simp
    | succ i =>
      simp only [List.get?_cons_succ] at hslot
      simp [ih i hslot]

/-- A slot named in `paramNames` exists in the header. -/
theorem slot_of_name (h : esriHeaderStruct) (i : Nat) (name : String)
    (hn : (paramNames h)[i]? = some name) :
    ∃ slot, h.esriHeaderData.get? i = some slot ∧ slot.parameter = name := by
  simp only [paramNames, List.getElem?_map, Option.map_eq_some'] at hn
  obtain ⟨slot, hs, hp⟩ := hn
  exact ⟨slot, by simpa [List.get?_eq_getElem?] using hs, hp⟩

/-- The loop panics with the `not found` message of the first mandatory slot whose
line carries another key, when the lines before it are valid. -/
theorem headerLoop_mismatch_after_valid (ParseFloat : String → Option ℚ)
    (inFile : List String) (names : List String) (j : Nat) :
    ∀ (n i : Nat) (h : esriHeaderStruct) (b : Bool) (name key : String) (rest : List String),
      paramNames h = names → j < n →
      (∀ k < j, ∃ nm v, names[i + k]? = some nm ∧
        ValidHeaderLine ParseFloat nm (inFile.getD (i + k) "") v) →
      names[i + j]? = some name → i + j ≠ noDataValue →
      strings_Fields (inFile.getD (i + j) "") = key :: rest →
      name ≠ strings_ToLower key →
      headerLoop ParseFloat n i (skipLoop i (NewScanner inFile)) h b =
        Except.error (GoPanic.errorString
          ("invalid esri file format: header parameter " ++ name ++ " not found")) := by
  induction j with
  | zero =>
    intro n i h b name key rest hnames hn _ hname h5 hf hk
    obtain ⟨n, rfl⟩ : ∃ m, n = m + 1 := ⟨n - 1, by omega⟩
    simp only [Nat.add_zero] at hname h5 hf
    rw [← hnames] at hname
    obtain ⟨slot, hslot, hp⟩ := slot_of_name h i name hname
    rw [← skipLoop_scan_text] at hf
    rw [headerLoop, headerBody_mismatch ParseFloat i _ h b slot key rest hslot hf (hp ▸ hk),
      if_neg h5, hp]
  | succ j ih =>
    intro n i h b name key rest hnames hn hvalid hname h5 hf hk
    obtain ⟨n, rfl⟩ : ∃ m, n = m + 1 := ⟨n - 1, by omega⟩
    obtain ⟨nm, v, hnm, hv⟩ := hvalid 0 (Nat.succ_pos j)
    rw [← hnames] at hnm
    obtain ⟨slot, hslot, hp⟩ := slot_of_name h i nm hnm
    rw [headerLoop_step_valid ParseFloat n i inFile h b slot v hslot (hp ▸ hv)]
    have hidx : ∀ k, i + 1 + k = i + (k + 1) := fun k => by omega
    refine ih n (i + 1) _ b name key rest ?_ (by omega) ?_ ?_ ?_ ?_ hk
    · rw [← hnames]
      exact map_parameter_set h.esriHeaderData i slot v hslot
    · intro k hk'
      rw [hidx k]
      exact hvalid (k + 1) (by omega)
    · rw [hidx j]; exact hname
    · rw [hidx j]; exact h5
    · rw [hidx j]; exact hf

/-- One iteration of a loop that returns, at line `i` of the file. -/
theorem headerLoop_step_inv (ParseFloat : String → Option ℚ) (n i : Nat)
    (inFile : List String) (h : esriHeaderStruct) (b : Bool)
    (res : Scanner × esriHeaderStruct × Bool)
    (hok : headerLoop ParseFloat (n + 1) i (skipLoop i (NewScanner inFile)) h b
      = Except.ok res) :
    ∃ slot, h.esriHeaderData.get? i = some slot ∧
      ((∃ v, ValidHeaderLine ParseFloat slot.parameter (inFile.getD i "") v ∧
          headerLoop ParseFloat n (i + 1) (skipLoop (i + 1) (NewScanner inFile))
            { h with esriHeaderData := h.esriHeaderData.set i { slot with value := v } } b
            = Except.ok res) ∨
        (i = noDataValue ∧
          (∃ key rest, strings_Fields (inFile.getD i "") = key :: rest ∧
            slot.parameter ≠ strings_ToLower key) ∧
          headerLoop ParseFloat n (i + 1) (skipLoop (i + 1) (NewScanner inFile))
            { h with esriHeaderData := h.esriHeaderData.set i { slot with value := -9999 } }
            false = Except.ok res)) := by
  obtain ⟨mid, hbody, hrest⟩ := headerLoop_ok_inv ParseFloat n i _ h b res hok
  obtain ⟨slot, hslot, hsc, hcase⟩ := headerBody_ok_inv ParseFloat i _ h b mid hbody
  rw [hsc, ← skipLoop_succ] at hrest
  rw [skipLoop_scan_text] at hcase
  refine ⟨slot, hslot, ?_⟩
  rcases hcase with ⟨v, hv, hh, hb⟩ | ⟨h5, hkey, hh, hb⟩
  · exact Or.inl ⟨v, hv, by rw [← hh, ← hb]; exact hrest⟩
  · exact Or.inr ⟨h5, hkey, by rw [← hh, ← hb]; exact hrest⟩

/-- What the six lines of the file are when the header loop returns: five valid
mandatory lines whose values are stored in order, and a sixth line that is either
a valid `nodata_value` line or a line with another key. -/
theorem headerLoop_accepts_inv (ParseFloat : String → Option ℚ) (inFile : List String)
    (regionName : String) (res : Scanner × esriHeaderStruct × Bool)
    (hok : headerLoop ParseFloat 6 0 (NewScanner inFile) (initialHeader regionName) true
      = Except.ok res) :
    ∃ v0 v1 v2 v3 v4 v5 : ℚ,
      ValidHeaderLine ParseFloat "ncols" (inFile.getD 0 "") v0 ∧
      ValidHeaderLine ParseFloat "nrows" (inFile.getD 1 "") v1 ∧
      ValidHeaderLine ParseFloat "xllcorner" (inFile.getD 2 "") v2 ∧
      ValidHeaderLine ParseFloat "yllcorner" (inFile.getD 3 "") v3 ∧
      ValidHeaderLine ParseFloat "cellsize" (inFile.getD 4 "") v4 ∧
      res.2.1 = headerOf regionName v0 v1 v2 v3 v4 v5 ∧
      ((ValidHeaderLine ParseFloat "nodata_value" (inFile.getD 5 "") v5 ∧ res.2.2 = true) ∨
        (v5 = -9999 ∧ res.2.2 = false ∧
          ∃ key rest, strings_Fields (inFile.getD 5 "") = key :: rest ∧
            "nodata_value" ≠ strings_ToLower key)) := by
  obtain ⟨s0, hs0, hc0⟩ := headerLoop_step_inv ParseFloat 5 0 inFile _ true res hok
  simp only [initialHeader, List.get?_cons_zero, Option.some.injEq] at hs0
  subst hs0
  rcases hc0 with ⟨v0, hv0, hok⟩ | ⟨h5, -, -⟩
  swap
  · exact absurd h5 (by decide)
  obtain ⟨s1, hs1, hc1⟩ := headerLoop_step_inv ParseFloat 4 1 inFile _ true res hok
  simp only [initialHeader, List.set, List.get?_cons_succ, List.get?_cons_zero,
    Option.some.injEq] at hs1
  subst hs1
  rcases hc1 with ⟨v1, hv1, hok⟩ | ⟨h5, -, -⟩
  swap
  · exact absurd h5 (by decide)
  obtain ⟨s2, hs2, hc2⟩ := headerLoop_step_inv ParseFloat 3 2 inFile _ true res hok
  simp only [initialHeader, List.set, List.get?_cons_succ, List.get?_cons_zero,
    Option.some.injEq] at hs2
  subst hs2
  rcases hc2 with ⟨v2, hv2, hok⟩ | ⟨h5, -, -⟩
  swap
  · exact absurd h5 (by decide)
  obtain ⟨s3, hs3, hc3⟩ := headerLoop_step_inv ParseFloat 2 3 inFile _ true res hok
  simp only [initialHeader, List.set, List.get?_cons_succ, List.get?_cons_zero,
    Option.some.injEq] at hs3
  subst hs3
  rcases hc3 with ⟨v3, hv3, hok⟩ | ⟨h5, -, -⟩
  swap
  · exact absurd h5 (by decide)
  obtain ⟨s4, hs4, hc4⟩ := headerLoop_step_inv ParseFloat 1 4 inFile _ true res hok
  simp only [initialHeader, List.set, List.get?_cons_succ, List.get?_cons_zero,
    Option.some.injEq] at hs4
  subst hs4
  rcases hc4 with ⟨v4, hv4, hok⟩ | ⟨h5, -, -⟩
  swap
  · exact absurd h5 (by decide)
  obtain ⟨s5, hs5, hc5⟩ := headerLoop_step_inv ParseFloat 0 5 inFile _ true res hok
  simp only [initialHeader, List.set, List.get?_cons_succ, List.get?_cons_zero,
    Option.some.injEq] at hs5
  subst hs5
  rcases hc5 with ⟨v5, hv5, hok⟩ | ⟨-, hkey, hok⟩
  · simp only [headerLoop, Except.ok.injEq] at hok
    subst hok
    exact ⟨v0, v1, v2, v3, v4, v5, hv0, hv1, hv2, hv3, hv4, rfl, Or.inl ⟨hv5, rfl⟩⟩
  · simp only [headerLoop, Except.ok.injEq] at hok
    subst hok
    exact ⟨v0, v1, v2, v3, v4, -9999, hv0, hv1, hv2, hv3, hv4, rfl, Or.inr ⟨rfl, rfl, hkey⟩⟩

/-- The header and the flag returned by `esriHeaderProcess` are those of the loop. -/
theorem esriHeaderProcess_ok_inv (ParseFloat : String → Option ℚ) (g : Globals)
    (inFile : List String) (esriHeader : esriHeaderStruct) (d : Devices) (r : HeaderResult)
    (hok : esriHeaderProcess ParseFloat g inFile esriHeader d = Except.ok r) :
    ∃ res, headerLoop ParseFloat 6 0 (NewScanner inFile) esriHeader true = Except.ok res ∧
      r.esriHeader = res.2.1 ∧ r.hasNoDataValue = res.2.2 := by
  unfold esriHeaderProcess at hok
  cases hl : headerLoop ParseFloat 6 0 (NewScanner inFile) esriHeader true with
  | error e => rw [hl] at hok; simp at hok
  | ok res =>
    rw [hl] at hok
    obtain ⟨sc, h, b⟩ := res
    simp only [Except.ok.injEq] at hok
    subst hok
    exact ⟨_, rfl, rfl, rfl⟩

/-- When the loop returns, `esriHeaderProcess` returns its header and its flag. -/
theorem esriHeaderProcess_of_loop (ParseFloat : String → Option ℚ) (g : Globals)
    (inFile : List String) (esriHeader : esriHeaderStruct) (d : Devices)
    (res : Scanner × esriHeaderStruct × Bool)
    (hl : headerLoop ParseFloat 6 0 (NewScanner inFile) esriHeader true = Except.ok res) :
    ∃ r, esriHeaderProcess ParseFloat g inFile esriHeader d = Except.ok r ∧
      r.esriHeader = res.2.1 ∧ r.hasNoDataValue = res.2.2 := by
  obtain ⟨sc, h, b⟩ := res
  unfold esriHeaderProcess
  rw [hl]
  exact ⟨_, rfl, rfl, rfl⟩

/-- When the loop panics, `esriHeaderProcess` panics with the same value. -/
theorem esriHeaderProcess_of_loop_error (ParseFloat : String → Option ℚ) (g : Globals)
    (inFile : List String) (esriHeader : esriHeaderStruct) (d : Devices) (e : GoPanic)
    (hl : headerLoop ParseFloat 6 0 (NewScanner inFile) esriHeader true = Except.error e) :
    esriHeaderProcess ParseFloat g inFile esriHeader d = Except.error e := by
  unfold esriHeaderProcess
  rw [hl]

/-- The first of `n + 1` consecutive lines, then the `n` that follow. -/
theorem dataRows_succ (inFile : List String) (first n : Nat) :
    dataRows inFile first (n + 1) = inFile.getD first "" :: dataRows inFile (first + 1) n := by
  simp only [dataRows, List.range_succ_eq_map, List.map_cons, List.map_map, Nat.add_zero]
  congr 1
  apply List.map_congr_left
  intro i _
  simp only [Function.comp, Nat.succ_eq_add_one]
  congr 1
  omega

/-- The scanner loop reads the next `n` lines not yet read, in order. -/
theorem rowLoop_eq_on (ParseFloat : String → Option ℚ) (g : Globals) (tableID : Int)
    (ncols xll cellsize : ℚ) (n : Nat) (inFile : List String) (k : Nat) (lat : ℚ)
    (d : Devices) :
    rowLoop ParseFloat g tableID ncols xll cellsize n (skipLoop k (NewScanner inFile)) lat d =
      rowLoopOn ParseFloat g tableID ncols xll cellsize (dataRows inFile k n) lat d := by
  induction n generalizing k lat d with
  | zero => rfl
  | succ n ih =>
    rw [dataRows_succ]
    unfold rowLoop rowLoopOn
    have ht : (skipLoop (k + 1) (NewScanner inFile)).text = inFile.getD k "" := by
      rw [skipLoop_succ, skipLoop_scan_text]
    simp only [← skipLoop_succ, ih, ht]

/-- The number of lines skipped before the data block. -/
theorem skip_count (b : Bool) : (5 + boolToInt b).toNat = if b then 6 else 5 := by
  cases b <;> rfl

/-! ## Lemmas on the case of header keys -/

/-- A case variant of an ASCII rune is white space, and is lowered, as the rune is. -/
theorem caseVariant_ascii :
    ∀ n, n < 128 →
      (isSpace (Char.ofNat n).toUpper = isSpace (Char.ofNat n) ∧
        toLowerRune (Char.ofNat n).toUpper = toLowerRune (Char.ofNat n)) ∧
      (isSpace (Char.ofNat n).toLower = isSpace (Char.ofNat n) ∧
        toLowerRune (Char.ofNat n).toLower = toLowerRune (Char.ofNat n)) := by
  decide!

/-- The upper-case counterpart of a rune is white space, and is lowered, as the
rune is. -/
theorem toUpper_spec (c : Char) :
    isSpace c.toUpper = isSpace c ∧ toLowerRune c.toUpper = toLowerRune c := by
  by_cases h : c.toNat ≥ 97 ∧ c.toNat ≤ 122
  · have := (caseVariant_ascii c.toNat (by omega)).1
    rwa [Char.ofNat_toNat] at this
  · have : c.toUpper = c := by simp only [Char.toUpper, if_neg h]
    rw [this]; exact ⟨rfl, rfl⟩

/-- The lower-case counterpart of a rune is white space, and is lowered, as the
rune is. -/
theorem toLower_spec (c : Char) :
    isSpace c.toLower = isSpace c ∧ toLowerRune c.toLower = toLowerRune c := by
  by_cases h : c.toNat ≥ 65 ∧ c.toNat ≤ 90
  · have := (caseVariant_ascii c.toNat (by omega)).2
    rwa [Char.ofNat_toNat] at this
  · have : c.toLower = c := by simp only [Char.toLower, if_neg h]
    rw [this]; exact ⟨rfl, rfl⟩

/-- A case variant of a rune is white space, and is lowered, as the rune is. -/
theorem caseVariant_spec (c c' : Char) (h : CaseVariant c c') :
    isSpace c' = isSpace c ∧ toLowerRune c' = toLowerRune c := by
  rcases h with rfl | rfl | rfl
  · exact ⟨rfl, rfl⟩
  · exact toUpper_spec c
  · exact toLower_spec c

/-- Leading white space is dropped by `strings.Fields`. -/
theorem fieldsAux_spaces (pre rest : List Char) (h : ∀ c ∈ pre, isSpace c = true) :
    fieldsAux (pre ++ rest) [] = fieldsAux rest [] := by
  induction pre with
  | nil => rfl
  | cons c cs ih =>
    have hc : isSpace c = true := h c (List.mem_cons_self _ _)
    simp only [List.cons_append, fieldsAux, hc, if_true, List.isEmpty_nil]
    exact ih (fun x hx => h x (List.mem_cons_of_mem _ hx))

/-- Runes that are not white space are added to the field being read. -/
theorem fieldsAux_token (key rest cur : List Char) (h : ∀ c ∈ key, isSpace c = false) :
    fieldsAux (key ++ rest) cur = fieldsAux rest (key.reverse ++ cur) := by
  induction key generalizing cur with
  | nil => rfl
  | cons c cs ih =>
    have hc : isSpace c = false := h c (List.mem_cons_self _ _)
    simp only [List.cons_append, fieldsAux, hc, Bool.false_eq_true, if_false]
    change fieldsAux (cs ++ rest) (c :: cur) = _
    rw [ih (c :: cur) (fun x hx => h x (List.mem_cons_of_mem _ hx))]
    simp

/-- A field being read ends at the end of the line or at white space. -/
theorem fieldsAux_close (post cur : List Char) (hcur : cur ≠ [])
    (h : ∀ c, post.head? = some c → isSpace c = true) :
    fieldsAux post cur = cur.reverse :: fieldsAux post [] := by
  have hne : cur.isEmpty = false := by cases cur <;> simp at hcur ⊢
  cases post with
  | nil => simp [fieldsAux, hne]
  | cons c cs =>
    have hc : isSpace c = true := h c rfl
    simp [fieldsAux, hc, hne]

/-- The fields of a line made of white space, a token, and a remainder that is empty
or starts with white space. -/
theorem fieldsAux_key (pre key post : List Char) (hpre : ∀ c ∈ pre, isSpace c = true)
    (hkey : ∀ c ∈ key, isSpace c = false) (hne : key ≠ [])
    (hpost : ∀ c, post.head? = some c → isSpace c = true) :
    fieldsAux (pre ++ key ++ post) [] = key :: fieldsAux post [] := by
  rw [List.append_assoc, fieldsAux_spaces pre _ hpre, fieldsAux_token key post [] hkey,
    fieldsAux_close post _ (by simpa using hne) hpost]
  simp

/-- A rune-wise case variant of a token has no white space. -/
theorem caseVariant_nonspace (key key' : List Char) (hv : List.Forall₂ CaseVariant key key')
    (hkey : ∀ c ∈ key, isSpace c = false) : ∀ c ∈ key', isSpace c = false := by
  induction hv with
  | nil => intro c hc; simp at hc
  | cons hab _ ih =>
    intro c hc
    rcases List.mem_cons.1 hc with rfl | hc
    · rw [(caseVariant_spec _ _ hab).1]
      exact hkey _ (List.mem_cons_self _ _)
    · exact ih (fun x hx => hkey x (List.mem_cons_of_mem _ hx)) c hc

/-- Replacing letters of the key token by case counterparts does not change what
the header loop looks at. -/
theorem headerView_keyCaseVariant (line line' : String) (h : KeyCaseVariant line line') :
    headerView line' = headerView line := by
  obtain ⟨pre, key, key', post, hl, hl', hpre, hkey, hpost, hv⟩ := h
  have hspec : ∀ c ∈ key', isSpace c = false :=
    caseVariant_nonspace key key' hv hkey
  have hlow : key'.map toLowerRune = key.map toLowerRune := by
    clear hspec hl hl' hkey
    induction hv with
    | nil => rfl
    | cons hab _ ih => simp only [List.map_cons, (caseVariant_spec _ _ hab).2, ih]
  by_cases hne : key = []
  · subst hne
    cases hv
    have : line' = line := by
      cases line; cases line'
      simp only at hl hl'
      simp [hl, hl']
    rw [this]
  · have hne' : key' ≠ [] := by
      intro h0
      subst h0
      cases hv
      exact hne rfl
    simp only [headerView, strings_Fields, hl, hl',
      fieldsAux_key pre key post hpre hkey hne hpost,
      fieldsAux_key pre key' post hpre hspec hne' hpost, List.map_cons, strings_ToLower, hlow]

/-- The body of the header loop depends on the scanned line only through
`headerView`. -/
theorem headerBody_eq_on (ParseFloat : String → Option ℚ) (i : Nat) (scanner : Scanner)
    (esriHeader : esriHeaderStruct) (b : Bool) :
    headerBody ParseFloat i scanner esriHeader b =
      match headerBodyOn ParseFloat i (headerView scanner.Scan.text) esriHeader b with
      | Except.error e => Except.error e
      | Except.ok x => Except.ok (scanner.Scan, x.1, x.2) := by
  unfold headerBody headerBodyOn headerView
  dsimp only
  cases hf : strings_Fields scanner.Scan.text with
  | nil => rfl
  | cons key rest =>
    simp only []
    cases hs : esriHeader.esriHeaderData.get? i with
    | none => rfl
    | some slot =>
      simp only []
      by_cases hk : slot.parameter = strings_ToLower key
      · simp only [if_pos hk]
        cases rest with
        | nil => rfl
        | cons tok rest =>
          simp only []
          cases hp : ParseFloat tok <;> rfl
      · simp only [if_neg hk]
        by_cases h5 : i = noDataValue
        · simp only [if_pos h5]
        · simp only [if_neg h5]

/-- The header and the flag computed by the loop depend on the lines only through
`headerView`. -/
theorem headerLoop_congr (ParseFloat : String → Option ℚ) (inFile inFile' : List String)
    (n : Nat) :
    ∀ (i : Nat) (h : esriHeaderStruct) (b : Bool),
      (∀ k, i ≤ k → k < i + n →
        headerView (inFile'.getD k "") = headerView (inFile.getD k "")) →
      Except.map (fun x => x.2)
          (headerLoop ParseFloat n i (skipLoop i (NewScanner inFile')) h b) =
        Except.map (fun x => x.2)
          (headerLoop ParseFloat n i (skipLoop i (NewScanner inFile)) h b) := by
  induction n with
  | zero => intro i h b _; rfl
  | succ n ih =>
    intro i h b hv
    have hi := hv i (le_refl i) (by omega)
    unfold headerLoop
    rw [headerBody_eq_on, headerBody_eq_on, skipLoop_scan_text, skipLoop_scan_text, hi]
    cases headerBodyOn ParseFloat i (headerView (inFile.getD i "")) h b with
    | error e => rfl
    | ok x =>
      simp only [← skipLoop_succ]
      exact ih (i + 1) x.1 x.2 (fun k hk1 hk2 => hv k (by omega) (by omega))

/-- What `esriHeaderProcess` returns is a function of the header and the flag of
the loop. -/
theorem esriHeaderProcess_congr (ParseFloat : String → Option ℚ) (g : Globals)
    (inFile inFile' : List String) (esriHeader : esriHeaderStruct) (d : Devices)
    (h : Except.map (fun x => x.2)
          (headerLoop ParseFloat 6 0 (NewScanner inFile') esriHeader true) =
        Except.map (fun x => x.2)
          (headerLoop ParseFloat 6 0 (NewScanner inFile) esriHeader true)) :
    esriHeaderProcess ParseFloat g inFile' esriHeader d =
      esriHeaderProcess ParseFloat g inFile esriHeader d := by
  unfold esriHeaderProcess
  cases h1 : headerLoop ParseFloat 6 0 (NewScanner inFile') esriHeader true with
  | error e1 =>
    cases h2 : headerLoop ParseFloat 6 0 (NewScanner inFile) esriHeader true with
    | error e2 =>
      rw [h1, h2] at h
      simp only [Except.map, Except.error.injEq] at h
      simp only [h]
    | ok x2 => rw [h1, h2] at h; simp [Except.map] at h
  | ok x1 =>
    cases h2 : headerLoop ParseFloat 6 0 (NewScanner inFile) esriHeader true with
    | error e2 => rw [h1, h2] at h; simp [Except.map] at h
    | ok x2 =>
      rw [h1, h2] at h
      simp only [Except.map, Except.ok.injEq] at h
      obtain ⟨s1, hd1, b1⟩ := x1
      obtain ⟨s2, hd2, b2⟩ := x2
      simp only [Prod.mk.injEq] at h
      obtain ⟨rfl, rfl⟩ := h
      rfl

/-! ## Fields between single spaces and white-space separated tokens -/

/-- The first piece of a split starts with the piece being read. -/
theorem splitAux_head (sep : Char) (s cur : List Char) :
    ∃ f rest, splitAux sep s cur = (cur.reverse ++ f) :: rest := by
  induction s generalizing cur with
  | nil => exact ⟨[], [], by simp [splitAux]⟩
  | cons c cs ih =>
    by_cases hc : c = sep
    · exact ⟨[], splitAux sep cs [], by simp [splitAux, hc]⟩
    · obtain ⟨f, rest, h⟩ := ih (c :: cur)
      exact ⟨c :: f, rest, by simp [splitAux, hc, h]⟩

/-- When the first `N` pieces between single spaces are not empty and hold no white
space, they are the first `N` white-space separated tokens. -/
theorem fieldsAux_take_eq_splitAux (s : List Char) :
    ∀ (cur : List Char) (N : Nat), (∀ ch ∈ cur, isSpace ch = false) →
      (∀ k < N, ∃ f, (splitAux (Char.ofNat 32) s cur)[k]? = some f ∧ f ≠ [] ∧
        ∀ ch ∈ f, isSpace ch = false) →
      (fieldsAux s cur).take N = (splitAux (Char.ofNat 32) s cur).take N := by
  induction s with
  | nil =>
    intro cur N _ hf
    cases N with
    | zero => simp
    | succ N =>
      obtain ⟨f, hf0, hne, -⟩ := hf 0 (Nat.succ_pos N)
      simp only [splitAux, List.getElem?_cons_zero, Option.some.injEq] at hf0
      have hcur : cur.isEmpty = false := by
        cases cur with
        | nil => subst hf0; simp at hne
        | cons a l => rfl
      simp [fieldsAux, splitAux, hcur]
  | cons c cs ih =>
    intro cur N hcur hf
    cases N with
    | zero => simp
    | succ N =>
      by_cases hc : c = Char.ofNat 32
      · have hsp : isSpace c = true := by subst hc; decide
        obtain ⟨f, hf0, hne, -⟩ := hf 0 (Nat.succ_pos N)
        simp only [splitAux, if_pos hc, List.getElem?_cons_zero, Option.some.injEq] at hf0
        have hemp : cur.isEmpty = false := by
          cases cur with
          | nil => subst hf0; simp at hne
          | cons a l => rfl
        simp only [fieldsAux, hsp, if_true, hemp, Bool.false_eq_true, if_false, splitAux,
          if_pos hc, List.take_succ_cons, List.cons.injEq, true_and]
        apply ih [] N (by simp)
        intro k hk
        have := hf (k + 1) (by omega)
        simpa only [splitAux, if_pos hc, List.getElem?_cons_succ] using this
      · obtain ⟨f, hf0, -, hns⟩ := hf 0 (Nat.succ_pos N)
        simp only [splitAux, if_neg hc] at hf0
        obtain ⟨f', rest, hsplit⟩ := splitAux_head (Char.ofNat 32) cs (c :: cur)
        rw [hsplit] at hf0
        simp only [List.getElem?_cons_zero, Option.some.injEq] at hf0
        have hcn : isSpace c = false := by
          apply hns
          rw [← hf0]
          simp
        simp only [fieldsAux, hcn, Bool.false_eq_true, if_false, splitAux, if_neg hc]
        apply ih (c :: cur) (N + 1)
        · intro ch hch
          rcases List.mem_cons.1 hch with rfl | h
          · exact hcn
          · exact hcur ch h
        · intro k hk
          have := hf k hk
          simpa only [splitAux, if_neg hc] using this

/-- When the first `N` fields of a line between single spaces are not empty and hold
no white space, field `c < N` is the `c`-th white-space separated token. -/
theorem fields_eq_split_of_sane (line : String) (N : Nat)
    (hf : ∀ k < N, ∃ tok, (strings_Split_space line)[k]? = some tok ∧ tok.data ≠ [] ∧
      ∀ ch ∈ tok.data, isSpace ch = false) :
    ∀ c < N, (strings_Fields line)[c]? = (strings_Split_space line)[c]? := by
  have htake := fieldsAux_take_eq_splitAux line.data [] N (by simp) (by
    intro k hk
    obtain ⟨tok, htok, hne, hns⟩ := hf k hk
    simp only [strings_Split_space, List.getElem?_map, Option.map_eq_some'] at htok
    obtain ⟨f, hfk, rfl⟩ := htok
    exact ⟨f, hfk, hne, hns⟩)
  intro c hc
  have h1 : ((fieldsAux line.data []).take N)[c]? = (fieldsAux line.data [])[c]? := by
    rw [List.getElem?_take]; simp [hc]
  have h2 : ((splitAux (Char.ofNat 32) line.data []).take N)[c]?
      = (splitAux (Char.ofNat 32) line.data [])[c]? := by
    rw [List.getElem?_take]; simp [hc]
  simp only [strings_Fields, strings_Split_space, List.getElem?_map, ← h1, ← h2, htake]

/-- A decimal digit is not white space. -/
theorem isSpace_of_isDigitRune (c : Char) (h : isDigitRune c = true) : isSpace c = false := by
  simp only [isDigitRune, Bool.and_eq_true, decide_eq_true_eq] at h
  have hall : ∀ n, n < 58 → 48 ≤ n → isSpace (Char.ofNat n) = false := by decide!
  have := hall c.toNat (by omega) h.1
  rwa [Char.ofNat_toNat] at this

/-- A list of decimal digits holds no white space. -/
theorem nospace_of_all_digits (l : List Char) (h : l.all isDigitRune = true) :
    ∀ ch ∈ l, isSpace ch = false := by
  intro ch hch
  exact isSpace_of_isDigitRune ch (List.all_eq_true.1 h ch hch)

/-- An accepted exponent part holds no white space. -/
theorem parseExponent_nospace (r : List Char) (e : Int) (h : parseExponent r = some e) :
    ∀ ch ∈ r, isSpace ch = false := by
  cases r with
  | nil => intro ch hch; simp at hch
  | cons c cs =>
    cases cs with
    | nil =>
      unfold parseExponent at h
      dsimp only at h
      split_ifs at h
    | cons s ds =>
      unfold parseExponent at h
      dsimp only at h
      by_cases hc : c = Char.ofNat 101 ∨ c = Char.ofNat 69
      · rw [if_pos hc] at h
        have hcn : isSpace c = false := by rcases hc with rfl | rfl <;> decide
        have hds : (∀ ch ∈ ds, isSpace ch = false) → isSpace s = false →
            ∀ ch ∈ c :: s :: ds, isSpace ch = false := by
          intro h1 h2 ch hch
          rcases List.mem_cons.1 hch with rfl | hch
          · exact hcn
          · rcases List.mem_cons.1 hch with rfl | hch
            · exact h2
            · exact h1 ch hch
        by_cases hs : s = Char.ofNat 45
        · rw [if_pos hs] at h
          by_cases hd : ds ≠ [] ∧ ds.all isDigitRune = true
          · exact hds (nospace_of_all_digits ds hd.2) (by subst hs; decide)
          · rw [if_neg hd] at h; simp at h
        · rw [if_neg hs] at h
          by_cases hs' : s = Char.ofNat 43
          · rw [if_pos hs'] at h
            by_cases hd : ds ≠ [] ∧ ds.all isDigitRune = true
            · exact hds (nospace_of_all_digits ds hd.2) (by subst hs'; decide)
            · rw [if_neg hd] at h; simp at h
          · rw [if_neg hs'] at h
            by_cases hd : (s :: ds).all isDigitRune = true
            · have hall := nospace_of_all_digits (s :: ds) hd
              exact hds (fun ch hch => hall ch (List.mem_cons_of_mem _ hch))
                (hall s (List.mem_cons_self _ _))
            · rw [if_neg hd] at h; simp at h
      · rw [if_neg hc] at h; simp at h

/-- An accepted unsigned literal is not empty and holds no white space. -/
theorem parseUnsigned_nospace (cs : List Char) (v : ℚ) (h : parseUnsigned cs = some v) :
    cs ≠ [] ∧ ∀ ch ∈ cs, isSpace ch = false := by
  have hsplit := List.takeWhile_append_dropWhile isDigitRune cs
  have hip : ∀ ch ∈ cs.takeWhile isDigitRune, isSpace ch = false := fun ch hch =>
    isSpace_of_isDigitRune ch (List.mem_takeWhile_imp hch)
  unfold parseUnsigned at h
  simp only [] at h
  split_ifs at h with hempty
  cases hr1 : cs.dropWhile isDigitRune with
  | nil =>
    rw [hr1] at h hsplit hempty
    simp only [List.append_nil] at hsplit
    simp only [and_true] at hempty
    rw [← hsplit]
    exact ⟨hempty, hip⟩
  | cons c r =>
    rw [hr1] at h hsplit hempty
    simp only [] at h hempty
    constructor
    · rw [← hsplit]; simp
    · by_cases hdot : c = Char.ofNat 46
      · simp only [if_pos hdot] at h
        cases he : parseExponent (r.dropWhile isDigitRune) with
        | none => rw [he] at h; simp at h
        | some e =>
          have hr := List.takeWhile_append_dropWhile isDigitRune r
          intro ch hch
          rw [← hsplit] at hch
          rcases List.mem_append.1 hch with hch | hch
          · exact hip ch hch
          · rcases List.mem_cons.1 hch with rfl | hch
            · subst hdot; decide
            · rw [← hr] at hch
              rcases List.mem_append.1 hch with hch | hch
              · exact isSpace_of_isDigitRune ch (List.mem_takeWhile_imp hch)
              · exact parseExponent_nospace _ e he ch hch
      · simp only [if_neg hdot] at h
        cases he : parseExponent (c :: r) with
        | none => rw [he] at h; simp at h
        | some e =>
          intro ch hch
          rw [← hsplit] at hch
          rcases List.mem_append.1 hch with hch | hch
          · exact hip ch hch
          · exact parseExponent_nospace _ e he ch hch

/-- The decimal parser accepts no empty string and no string holding white space. -/
theorem parseDecimal_rejectsBlanks : RejectsBlanks parseDecimal := by
  intro s v h
  unfold parseDecimal at h
  cases hs : s.data with
  | nil => rw [hs] at h; simp at h
  | cons c cs =>
    rw [hs] at h
    simp only [] at h
    refine ⟨by simp, ?_⟩
    split_ifs at h with hm hp
    · cases hu : parseUnsigned cs with
      | none => rw [hu] at h; simp at h
      | some q =>
        intro ch hch
        rcases List.mem_cons.1 hch with rfl | hch
        · subst hm; decide
        · exact (parseUnsigned_nospace cs q hu).2 ch hch
    · intro ch hch
      rcases List.mem_cons.1 hch with rfl | hch
      · subst hp; decide
      · exact (parseUnsigned_nospace cs v h).2 ch hch
    · exact (parseUnsigned_nospace (c :: cs) v h).2

/-- The names of the six slots of the header built by `main`. -/
theorem paramNames_initialHeader (regionName : String) (i : Nat) (hi : i < 6) :
    (paramNames (initialHeader regionName))[i]? = some (slotName i) := by
  interval_cases i <;> rfl

/-- Among lines that are each valid or carry a wrong key, the first one with a wrong
key is preceded by valid lines only. -/
theorem first_mismatch (ParseFloat : String → Option ℚ) (inFile : List String) (i : Nat) :
    (∃ key rest, strings_Fields (inFile.getD i "") = key :: rest ∧
      strings_ToLower key ≠ slotName i) →
    (∀ k < i, (∃ v, ValidHeaderLine ParseFloat (slotName k) (inFile.getD k "") v) ∨
      (∃ key rest, strings_Fields (inFile.getD k "") = key :: rest ∧
        strings_ToLower key ≠ slotName k)) →
    ∃ j ≤ i,
      (∃ key rest, strings_Fields (inFile.getD j "") = key :: rest ∧
        strings_ToLower key ≠ slotName j) ∧
      ∀ k < j, ∃ v, ValidHeaderLine ParseFloat (slotName k) (inFile.getD k "") v := by
  induction i using Nat.strong_induction_on with
  | _ i ih =>
    intro hmis hprev
    by_cases hall : ∀ k < i, ∃ v, ValidHeaderLine ParseFloat (slotName k) (inFile.getD k "") v
    · exact ⟨i, le_refl i, hmis, hall⟩
    · push_neg at hall
      obtain ⟨k, hk, hnot⟩ := hall
      have hmk : ∃ key rest, strings_Fields (inFile.getD k "") = key :: rest ∧
          strings_ToLower key ≠ slotName k := by
        rcases hprev k hk with ⟨v, hv⟩ | hm
        · exact absurd hv (hnot v)
        · exact hm
      obtain ⟨j, hj, hmj, hvalid⟩ := ih k hk hmk (fun m hm => hprev m (by omega))
      exact ⟨j, by omega, hmj, hvalid⟩

/-! ## Lemmas on header lines without a usable value -/

/-- One iteration on a line whose key is the name of the slot and that has no second
field panics with the `value ... not found` message. -/
theorem headerBody_value_missing (ParseFloat : String → Option ℚ) (i : Nat)
    (scanner : Scanner) (esriHeader : esriHeaderStruct) (b : Bool) (slot : esriHeaderDatum)
    (key : String)
    (hslot : esriHeader.esriHeaderData.get? i = some slot)
    (hf : strings_Fields scanner.Scan.text = [key])
    (hk : slot.parameter = strings_ToLower key) :
    headerBody ParseFloat i scanner esriHeader b =
      Except.error (GoPanic.errorString
        ("invalid esri file format: header parameter value for " ++ slot.parameter ++
          " not found")) := by
  simp only [headerBody, hf, hslot, hk, if_true]

/-- One iteration on a line whose key is the name of the slot and whose second field
does not parse panics with the error of the parser. -/
theorem headerBody_not_numeric (ParseFloat : String → Option ℚ) (i : Nat)
    (scanner : Scanner) (esriHeader : esriHeaderStruct) (b : Bool) (slot : esriHeaderDatum)
    (key tok : String) (rest : List String)
    (hslot : esriHeader.esriHeaderData.get? i = some slot)
    (hf : strings_Fields scanner.Scan.text = key :: tok :: rest)
    (hk : slot.parameter = strings_ToLower key)
    (hp : ParseFloat tok = none) :
    headerBody ParseFloat i scanner esriHeader b = Except.error (GoPanic.numError tok) := by
  simp only [headerBody, hf, hslot, hk, hp, if_true]

/-- The loop panics with the value of the first iteration that panics, when the
lines before it are valid. -/
theorem headerLoop_error_after_valid (ParseFloat : String → Option ℚ)
    (inFile : List String) (names : List String) (j : Nat) :
    ∀ (n i : Nat) (h : esriHeaderStruct) (b : Bool) (e : GoPanic),
      paramNames h = names → j < n →
      (∀ k < j, ∃ nm v, names[i + k]? = some nm ∧
        ValidHeaderLine ParseFloat nm (inFile.getD (i + k) "") v) →
      (∀ (h' : esriHeaderStruct) (b' : Bool), paramNames h' = names →
        headerBody ParseFloat (i + j) (skipLoop (i + j) (NewScanner inFile)) h' b'
          = Except.error e) →
      headerLoop ParseFloat n i (skipLoop i (NewScanner inFile)) h b = Except.error e := by
  induction j with
  | zero =>
    intro n i h b e hnames hn _ hfail
    obtain ⟨n, rfl⟩ : ∃ m, n = m + 1 := ⟨n - 1, by omega⟩
    have := hfail h b hnames
    simp only [Nat.add_zero] at this
    rw [headerLoop, this]
  | succ j ih =>
    intro n i h b e hnames hn hvalid hfail
    obtain ⟨n, rfl⟩ : ∃ m, n = m + 1 := ⟨n - 1, by omega⟩
    obtain ⟨nm, v, hnm, hv⟩ := hvalid 0 (Nat.succ_pos j)
    rw [← hnames] at hnm
    obtain ⟨slot, hslot, hp⟩ := slot_of_name h i nm hnm
    rw [headerLoop_step_valid ParseFloat n i inFile h b slot v hslot (hp ▸ hv)]
    have hidx : ∀ k, i + 1 + k = i + (k + 1) := fun k => by omega
    refine ih n (i + 1) _ b e ?_ (by omega) ?_ ?_
    · rw [← hnames]
      exact map_parameter_set h.esriHeaderData i slot v hslot
    · intro k hk'
      rw [hidx k]
      exact hvalid (k + 1) (by omega)
    · intro h' b' hn'
      rw [hidx j]
      exact hfail h' b' hn'

/-- The text `slotName i` is the name of slot `i` in any header with the names of
the header built by `main`. -/
theorem slot_of_slotName (regionName : String) (h' : esriHeaderStruct) (i : Nat) (hi : i < 6)
    (hn : paramNames h' = paramNames (initialHeader regionName)) :
    ∃ slot, h'.esriHeaderData.get? i = some slot ∧ slot.parameter = slotName i := by
  apply slot_of_name
  rw [hn]
  exact paramNames_initialHeader regionName i hi

/-! ## Lemmas on the acceptance of data rows -/

/-- Splitting a line on the single space gives at least one field. -/
theorem split_length_pos (line : String) : 1 ≤ (strings_Split_space line).length := by
  obtain ⟨f, rest, h⟩ := splitAux_head (Char.ofNat 32) line.data []
  simp [strings_Split_space, h]

/-- The fields read by the inner loop are all the fields but the last. -/
theorem take_eq_dropLast (line : String) :
    (strings_Split_space line).take ((strings_Split_space line).length - 1)
      = (strings_Split_space line).dropLast := by
  rw [List.dropLast_eq_take]

/-- The width compared with `ncols` is the number of fields but the last. -/
theorem width_eq_dropLast (line : String) :
    ((strings_Split_space line).length : Int) - 1
      = ((strings_Split_space line).dropLast.length : Int) := by
  have := split_length_pos line
  rw [List.length_dropLast]
  omega

/-- The inner loop is not stopped exactly when every token parses. -/
theorem colCells_ok_iff (ParseFloat : String → Option ℚ) (cellsize lat : ℚ)
    (toks : List String) (lon : ℚ) :
    (colCells ParseFloat cellsize lat toks lon).2 = none ↔
      ∀ tok ∈ toks, ∃ v, ParseFloat tok = some v := by
  induction toks generalizing lon with
  | nil => simp [colCells]
  | cons tok toks ih =>
    cases hp : ParseFloat tok with
    | none =>
      simp only [colCells, hp, List.mem_cons, forall_eq_or_imp]
      constructor
      · intro h; exact absurd h (by simp)
      · rintro ⟨⟨v, hv⟩, -⟩; exact absurd hv (by simp)
    | some v =>
      simp only [colCells, hp, List.mem_cons, forall_eq_or_imp, ih (lon + cellsize)]
      constructor
      · intro h; exact ⟨⟨v, rfl⟩, h⟩
      · intro h; exact h.2

/-- The outer loop is not stopped exactly when each of the lines it reads is
accepted. -/
theorem rowCells_ok_iff (ParseFloat : String → Option ℚ) (ncols xll cellsize : ℚ)
    (n : Nat) (scanner : Scanner) (lat : ℚ) :
    (rowCells ParseFloat ncols xll cellsize n scanner lat).2 = none ↔
      ∀ k < n, RowAccepted ParseFloat ncols (scanner.pending.getD k "") := by
  induction n generalizing scanner lat with
  | zero => simp [rowCells]
  | succ n ih =>
    have hshift : ∀ k, scanner.Scan.pending.getD k "" = scanner.pending.getD (k + 1) "" := by
      intro k
      rw [scan_pending, getD_drop_line, Nat.add_comm]
    have hsplit : (∀ k < n + 1, RowAccepted ParseFloat ncols (scanner.pending.getD k "")) ↔
        RowAccepted ParseFloat ncols scanner.Scan.text ∧
          ∀ k < n, RowAccepted ParseFloat ncols (scanner.Scan.pending.getD k "") := by
      constructor
      · intro h
        refine ⟨?_, fun k hk => ?_⟩
        · rw [scan_text]; exact h 0 (Nat.succ_pos n)
        · rw [hshift]; exact h (k + 1) (by omega)
      · rintro ⟨h0, hrest⟩ k hk
        cases k with
        | zero => rw [← scan_text]; exact h0
        | succ k => rw [← hshift]; exact hrest k (by omega)
    rw [hsplit]
    unfold rowCells
    simp only []
    split_ifs with hw
    · constructor
      · intro h; exact absurd h (by simp)
      · rintro ⟨⟨hlen, -⟩, -⟩
        exact absurd (by omega) hw
    · push_neg at hw
      rw [take_eq_dropLast]
      cases hrow : (colCells ParseFloat cellsize (lat - cellsize)
          (strings_Split_space scanner.Scan.text).dropLast xll).2 with
      | some e =>
        simp only []
        constructor
        · intro h; exact absurd h (by simp)
        · rintro ⟨⟨-, hall⟩, -⟩
          have := (colCells_ok_iff ParseFloat cellsize (lat - cellsize) _ xll).2 hall
          rw [hrow] at this
          exact absurd this (by simp)
      | none =>
        simp only []
        rw [ih scanner.Scan (lat - cellsize)]
        constructor
        · intro h
          exact ⟨⟨by omega, (colCells_ok_iff ParseFloat cellsize (lat - cellsize) _ xll).1 hrow⟩,
            h⟩
        · intro h; exact h.2

/-- One iteration of the outer loop looks at the line only through its fields but
the last. -/
theorem rowLoopOn_cons_congr (ParseFloat : String → Option ℚ) (g : Globals) (tableID : Int)
    (ncols xll cellsize : ℚ) (line line' : String) (lines lines' : List String) (lat : ℚ)
    (d : Devices)
    (hline : (strings_Split_space line').dropLast = (strings_Split_space line).dropLast)
    (hrest : ∀ (lat : ℚ) (d : Devices),
      rowLoopOn ParseFloat g tableID ncols xll cellsize lines' lat d =
        rowLoopOn ParseFloat g tableID ncols xll cellsize lines lat d) :
    rowLoopOn ParseFloat g tableID ncols xll cellsize (line' :: lines') lat d =
      rowLoopOn ParseFloat g tableID ncols xll cellsize (line :: lines) lat d := by
  unfold rowLoopOn
  simp only [take_eq_dropLast, width_eq_dropLast, hline, hrest]

/-- The outer loop gives the same result on two files whose data lines have the
same fields but the last. -/
theorem rowLoopOn_dataRows_congr (ParseFloat : String → Option ℚ) (g : Globals)
    (tableID : Int) (ncols xll cellsize : ℚ) (inFile inFile' : List String) (n : Nat) :
    ∀ (first : Nat) (lat : ℚ) (d : Devices),
      (∀ k, first ≤ k →
        (strings_Split_space (inFile'.getD k "")).dropLast
          = (strings_Split_space (inFile.getD k "")).dropLast) →
      rowLoopOn ParseFloat g tableID ncols xll cellsize (dataRows inFile' first n) lat d =
        rowLoopOn ParseFloat g tableID ncols xll cellsize (dataRows inFile first n) lat d := by
  induction n with
  | zero => intro first lat d _; rfl
  | succ n ih =>
    intro first lat d h
    rw [dataRows_succ, dataRows_succ]
    apply rowLoopOn_cons_congr
    · exact h first (le_refl _)
    · intro lat d
      exact ih (first + 1) lat d (fun k hk => h k (by omega))

/-- What `esriDataProcess` does, in terms of the loop over the texts of the data
lines. -/
theorem esriDataProcess_eq_on (ParseFloat : String → Option ℚ) (g : Globals)
    (inFile : List String) (name : esriHeaderNameStruct) (c r x y s : esriHeaderDatum)
    (rest : List esriHeaderDatum) (tableID : Int) (hasNoDataValue : Bool) (d : Devices) :
    esriDataProcess ParseFloat g inFile ⟨name, c :: r :: x :: y :: s :: rest⟩ tableID
        hasNoDataValue d =
      rowLoopOn ParseFloat g tableID c.value x.value s.value
        (dataRows inFile (5 + boolToInt hasNoDataValue).toNat (goInt r.value).toNat)
        (y.value + r.value * s.value)
        (if g.outputToFile then { d with file := [] } else d) := by
  simp only [esriDataProcess, rowLoop_eq_on]

/-! ## Lemmas on the output file -/

/-- With file output enabled, `esriHeaderProcess` leaves the output file holding the
header line and nothing else. -/
theorem esriHeaderProcess_file (ParseFloat : String → Option ℚ) (g : Globals)
    (inFile : List String) (esriHeader : esriHeaderStruct) (d : Devices) (r : HeaderResult)
    (hok : esriHeaderProcess ParseFloat g inFile esriHeader d = Except.ok r)
    (hfile : g.outputToFile = true) :
    r.devices.file = [OutputLine.header r.esriHeader] := by
  unfold esriHeaderProcess at hok
  cases hl : headerLoop ParseFloat 6 0 (NewScanner inFile) esriHeader true with
  | error e => rw [hl] at hok; simp at hok
  | ok res =>
    rw [hl] at hok
    obtain ⟨sc, h, b⟩ := res
    simp only [Except.ok.injEq] at hok
    subst hok
    simp [hfile]

/-- What `main` returns when the header stage has returned `r`. -/
theorem main_of_header_ok (ParseFloat : String → Option ℚ) (g : Globals)
    (inFile : List String) (d : Devices) (r : HeaderResult)
    (hh : esriHeaderProcess ParseFloat g inFile (initialHeader g.regionName)
      { d with console := d.console ++ [OutputLine.banner] } = Except.ok r) :
    (main ParseFloat g inFile d).2 =
        (esriDataProcess ParseFloat g inFile r.esriHeader r.tableID r.hasNoDataValue
          r.devices).2 ∧
      (main ParseFloat g inFile d).1.file =
        (esriDataProcess ParseFloat g inFile r.esriHeader r.tableID r.hasNoDataValue
          r.devices).1.file := by
  simp only [main, hh]
  cases hdata : esriDataProcess ParseFloat g inFile r.esriHeader r.tableID r.hasNoDataValue
      r.devices with
  | mk dd err =>
    cases err with
    | some e => exact ⟨rfl, rfl⟩
    | none =>
      refine ⟨rfl, ?_⟩
      cases g.outputToConsole <;> rfl

/-! ## Lemmas on the command-line flags -/

/-- The prefix test holds exactly of the prefixes. -/
theorem hasPrefixAux_iff (l p : List Char) : hasPrefixAux l p = true ↔ p <+: l := by
  induction l generalizing p with
  | nil =>
    cases p with
    | nil => simp [hasPrefixAux]
    | cons a ps => simp [hasPrefixAux]
  | cons c cs ih =>
    cases p with
    | nil => simp [hasPrefixAux]
    | cons a ps =>
      simp only [hasPrefixAux, Bool.and_eq_true, beq_iff_eq, ih, List.cons_prefix_cons]
      constructor
      · rintro ⟨h1, h2⟩; exact ⟨h1.symm, h2⟩
      · rintro ⟨h1, h2⟩; exact ⟨h1.symm, h2⟩

/-- The search succeeds exactly when `substr` is a contiguous part of the text. -/
theorem containsAux_iff (l substr : List Char) :
    containsAux l substr = true ↔ substr <:+: l := by
  induction l with
  | nil => simp [containsAux, List.infix_nil]
  | cons c cs ih =>
    simp only [containsAux, Bool.or_eq_true, hasPrefixAux_iff, ih, List.infix_cons_iff]

/-- `strings.Contains` holds exactly when the runes of `substr` are a contiguous part
of the runes of `s`. -/
theorem strings_Contains_iff (s substr : String) :
    strings_Contains s substr = true ↔ substr.data <:+: s.data :=
  containsAux_iff s.data substr.data

/-! ## Claims -/

/-- C1. Every cell that `esriDataProcess` hands to the devices at zero-based row `r`
and column `c`, that is at position `r * ncols + c` of the emitted sequence, has
latitude `yllcorner + nrows * cellsize - (r + 1) * cellsize` and longitude
`xllcorner + c * cellsize`, whether or not the run is later stopped by a panic. -/
theorem esriDataProcess_cell_coordinates (ParseFloat : String → Option ℚ) (g : Globals)
    (inFile : List String) (esriHeader : esriHeaderStruct) (tableID : Int)
    (hasNoDataValue : Bool) (d : Devices) :
    ∃ cells : List Cell,
      Receives g tableID d
        (esriDataProcess ParseFloat g inFile esriHeader tableID hasNoDataValue d).1 cells ∧
      ∀ (r c : Nat) (cell : Cell), c < (goInt (esriHeader.val nCols)).toNat →
        cells[r * (goInt (esriHeader.val nCols)).toNat + c]? = some cell →
        cell.lat = esriHeader.val yllCorner + esriHeader.val nRows * esriHeader.val cellSize
            - (r + 1) * esriHeader.val cellSize ∧
          cell.lon = esriHeader.val xllCorner + c * esriHeader.val cellSize := by
  obtain ⟨name, data⟩ := esriHeader
  match data with
  | c0 :: r0 :: x0 :: y0 :: s0 :: rest =>
    rw [esriDataProcess_eq]
    refine ⟨_, receives_emitCells _ _ _ _, ?_⟩
    intro r c cell hc h
    exact rowCells_coordinates ParseFloat c0.value x0.value s0.value _ _ _ r c cell hc h
  | [] => exact ⟨[], receives_nil _ _ _, by simp⟩
  | [_] => exact ⟨[], receives_nil _ _ _, by simp⟩
  | [_, _] => exact ⟨[], receives_nil _ _ _, by simp⟩
  | [_, _, _] => exact ⟨[], receives_nil _ _ _, by simp⟩
  | [_, _, _, _] => exact ⟨[], receives_nil _ _ _, by simp⟩

/-- C1, the two by two grid of the specification: with `xllcorner = 0`,
`yllcorner = 0`, `cellsize = 1`, `nrows = 2`, `ncols = 2` the four cells are emitted
with coordinates (1, 0), (1, 1), (0, 0), (0, 1). -/
theorem esriDataProcess_cell_coordinates_witness :
    (esriDataProcess parseDecimal exGlobals exGrid (exHeader 2 2 0 0 1) 0 true exDevices).1.file
        = [OutputLine.cell ⟨1, 0, 10⟩, OutputLine.cell ⟨1, 1, 20⟩,
            OutputLine.cell ⟨0, 0, 30⟩, OutputLine.cell ⟨0, 1, 40⟩] ∧
    ∃ cells : List Cell,
      Receives exGlobals 0 exDevices
        (esriDataProcess parseDecimal exGlobals exGrid (exHeader 2 2 0 0 1) 0 true
          exDevices).1 cells ∧
      ∀ (r c : Nat) (cell : Cell), c < (goInt ((exHeader 2 2 0 0 1).val nCols)).toNat →
        cells[r * (goInt ((exHeader 2 2 0 0 1).val nCols)).toNat + c]? = some cell →
        cell.lat = (exHeader 2 2 0 0 1).val yllCorner
            + (exHeader 2 2 0 0 1).val nRows * (exHeader 2 2 0 0 1).val cellSize
            - (r + 1) * (exHeader 2 2 0 0 1).val cellSize ∧
          cell.lon = (exHeader 2 2 0 0 1).val xllCorner
            + c * (exHeader 2 2 0 0 1).val cellSize :=
  ⟨by decide!,
    esriDataProcess_cell_coordinates parseDecimal exGlobals exGrid (exHeader 2 2 0 0 1) 0 true
      exDevices⟩

/-- C2. On a file declaring `ncols 2` whose only data row is `1 2 3`, the whole run
finishes without a panic: the row passes the width test, two cells are emitted and
the third number is never read. -/
theorem main_accepts_row_with_extra_token :
    main parseDecimal exGlobals exExtraToken exDevices =
      (⟨[OutputLine.banner, OutputLine.header (exHeader 2 1 0 0 1),
            OutputLine.cell ⟨0, 0, 1⟩, OutputLine.cell ⟨0, 1, 2⟩, OutputLine.elapsed],
          [OutputLine.cell ⟨0, 0, 1⟩, OutputLine.cell ⟨0, 1, 2⟩], ⟨1, [], []⟩⟩, none) := by
  decide!

/-- C3. On a file declaring `ncols 2` whose only data row is `1 2`, exactly two
numbers separated by one blank, the run is stopped by the row-width panic and no
cell is emitted. -/
theorem main_rejects_row_without_trailing_blank :
    main parseDecimal exGlobals exNoTrailingBlank exDevices =
      (⟨[OutputLine.banner, OutputLine.header (exHeader 2 1 0 0 1)], [], ⟨1, [], []⟩⟩,
        some (GoPanic.errorString "nCols != line length")) := by
  decide!

/-- C4, the claim fails: on the header declaring `ncols 1.5` and `nrows 2.5`, which
`esriHeaderProcess` returns, `esriDataProcess` finishes without a panic after
handing two cells to the devices, while `nrows * ncols` is `15 / 4`. -/
theorem esriDataProcess_count_not_product :
    esriHeaderProcess parseDecimal exGlobals exFractional (initialHeader "region") exDevices =
      Except.ok ⟨exHeader (3 / 2) (5 / 2) 0 0 1, 0, false,
        ⟨[OutputLine.header (exHeader (3 / 2) (5 / 2) 0 0 1)],
          [OutputLine.header (exHeader (3 / 2) (5 / 2) 0 0 1)], ⟨1, [], []⟩⟩⟩ ∧
    esriDataProcess parseDecimal exGlobals exFractional (exHeader (3 / 2) (5 / 2) 0 0 1) 0
        false
        ⟨[OutputLine.header (exHeader (3 / 2) (5 / 2) 0 0 1)],
          [OutputLine.header (exHeader (3 / 2) (5 / 2) 0 0 1)], ⟨1, [], []⟩⟩ =
      (⟨[OutputLine.header (exHeader (3 / 2) (5 / 2) 0 0 1),
            OutputLine.cell ⟨3 / 2, 0, 7⟩, OutputLine.cell ⟨1 / 2, 0, 8⟩],
          [OutputLine.cell ⟨3 / 2, 0, 7⟩, OutputLine.cell ⟨1 / 2, 0, 8⟩], ⟨1, [], []⟩⟩, none) ∧
    (exHeader (3 / 2) (5 / 2) 0 0 1).val nRows * (exHeader (3 / 2) (5 / 2) 0 0 1).val nCols
      = 15 / 4 := by
  decide!

/-- C4 as amended. When `esriDataProcess` finishes without a panic, every enabled
device has received the same sequence of cells; it has
`max 0 (int nrows) * max 0 (int ncols)` elements, `int` being the truncation that the
loops apply to the header values, and the cell at position `r * int ncols + c`
carries the parse of token `c` of data line `r`, the line
`5 + boolToInt hasNoDataValue + r` of the file (counted from zero).  Token `c` is
field `c` of the line split on single spaces, and it is also the `c`-th white-space
separated token of the line, since the parser accepts no blank. -/
theorem esriDataProcess_row_major (ParseFloat : String → Option ℚ) (g : Globals)
    (inFile : List String) (esriHeader : esriHeaderStruct) (tableID : Int)
    (hasNoDataValue : Bool) (d : Devices)
    (hok : (esriDataProcess ParseFloat g inFile esriHeader tableID hasNoDataValue d).2 = none) :
    ∃ cells : List Cell,
      Receives g tableID d
        (esriDataProcess ParseFloat g inFile esriHeader tableID hasNoDataValue d).1 cells ∧
      cells.length =
        (goInt (esriHeader.val nRows)).toNat * (goInt (esriHeader.val nCols)).toNat ∧
      ∀ r c : Nat, r < (goInt (esriHeader.val nRows)).toNat →
        c < (goInt (esriHeader.val nCols)).toNat →
        ∃ cell tok,
          cells[r * (goInt (esriHeader.val nCols)).toNat + c]? = some cell ∧
          (strings_Split_space
            (inFile.getD ((5 + boolToInt hasNoDataValue).toNat + r) ""))[c]? = some tok ∧
          ParseFloat tok = some cell.value ∧
          (RejectsBlanks ParseFloat →
            (strings_Fields
              (inFile.getD ((5 + boolToInt hasNoDataValue).toNat + r) ""))[c]? = some tok) := by
  obtain ⟨name, data⟩ := esriHeader
  match data with
  | c0 :: r0 :: x0 :: y0 :: s0 :: rest =>
    rw [esriDataProcess_eq] at hok ⊢
    simp only [] at hok
    obtain ⟨hlen, hget⟩ := rowCells_of_ok ParseFloat c0.value x0.value s0.value _ _ _ hok
    refine ⟨_, receives_emitCells _ _ _ _, hlen, ?_⟩
    have hline : ∀ r c : Nat, r < (goInt r0.value).toNat → c < (goInt c0.value).toNat →
        ∃ cell tok,
          (rowCells ParseFloat c0.value x0.value s0.value (goInt r0.value).toNat
            (skipLoop (5 + boolToInt hasNoDataValue).toNat (NewScanner inFile))
            (y0.value + r0.value * s0.value)).1[r * (goInt c0.value).toNat + c]? = some cell ∧
          (strings_Split_space
            (inFile.getD ((5 + boolToInt hasNoDataValue).toNat + r) ""))[c]? = some tok ∧
          ParseFloat tok = some cell.value := by
      intro r c hr hc
      obtain ⟨cell, tok, h1, h2, h3⟩ := hget r c hr hc
      rw [skipLoop_pending, NewScanner, getD_drop_line] at h2
      exact ⟨cell, tok, h1, h2, h3⟩
    intro r c hr hc
    obtain ⟨cell, tok, h1, h2, h3⟩ := hline r c hr hc
    refine ⟨cell, tok, h1, h2, h3, ?_⟩
    intro hsane
    rw [← h2]
    refine fields_eq_split_of_sane _ (goInt c0.value).toNat ?_ c hc
    intro k hk
    obtain ⟨cell', tok', -, h2', h3'⟩ := hline r k hr hk
    exact ⟨tok', h2', hsane tok' _ h3'⟩
  | [] => simp [esriDataProcess] at hok
  | [_] => simp [esriDataProcess] at hok
  | [_, _] => simp [esriDataProcess] at hok
  | [_, _, _] => simp [esriDataProcess] at hok
  | [_, _, _, _] => simp [esriDataProcess] at hok

/-- C4 as amended, on the two by two grid: the run finishes, and the four values 10,
20, 30, 40 reach the console and the file in row-major order. -/
theorem esriDataProcess_row_major_witness :
    RejectsBlanks parseDecimal ∧
    (esriDataProcess parseDecimal exGlobals exGrid (exHeader 2 2 0 0 1) 0 true exDevices).2
        = none ∧
    (esriDataProcess parseDecimal exGlobals exGrid (exHeader 2 2 0 0 1) 0 true exDevices).1.file
        = [OutputLine.cell ⟨1, 0, 10⟩, OutputLine.cell ⟨1, 1, 20⟩,
            OutputLine.cell ⟨0, 0, 30⟩, OutputLine.cell ⟨0, 1, 40⟩] ∧
    ∃ cells : List Cell,
      Receives exGlobals 0 exDevices
        (esriDataProcess parseDecimal exGlobals exGrid (exHeader 2 2 0 0 1) 0 true
          exDevices).1 cells ∧
      cells.length =
        (goInt ((exHeader 2 2 0 0 1).val nRows)).toNat
          * (goInt ((exHeader 2 2 0 0 1).val nCols)).toNat ∧
      ∀ r c : Nat, r < (goInt ((exHeader 2 2 0 0 1).val nRows)).toNat →
        c < (goInt ((exHeader 2 2 0 0 1).val nCols)).toNat →
        ∃ cell tok,
          cells[r * (goInt ((exHeader 2 2 0 0 1).val nCols)).toNat + c]? = some cell ∧
          (strings_Split_space
            (exGrid.getD ((5 + boolToInt true).toNat + r) ""))[c]? = some tok ∧
          parseDecimal tok = some cell.value ∧
          (RejectsBlanks parseDecimal →
            (strings_Fields (exGrid.getD ((5 + boolToInt true).toNat + r) ""))[c]? = some tok) :=
  ⟨parseDecimal_rejectsBlanks, by decide!, by decide!,
    esriDataProcess_row_major parseDecimal exGlobals exGrid (exHeader 2 2 0 0 1) 0 true
      exDevices (by decide!)⟩

/-- C5. When the first five lines are valid mandatory header lines and the sixth
line has a first field `key`: if `key` lower-cased is `nodata_value` and the next
field parses to `v`, `esriHeaderProcess` returns with `hasNoDataValue = true` and
`v` stored as `nodata_value`; if `key` lower-cased is anything else it returns with
`hasNoDataValue = false` and `-9999` stored. -/
theorem esriHeaderProcess_nodata (ParseFloat : String → Option ℚ) (g : Globals)
    (inFile : List String) (d : Devices) (v0 v1 v2 v3 v4 : ℚ)
    (h0 : ValidHeaderLine ParseFloat "ncols" (inFile.getD 0 "") v0)
    (h1 : ValidHeaderLine ParseFloat "nrows" (inFile.getD 1 "") v1)
    (h2 : ValidHeaderLine ParseFloat "xllcorner" (inFile.getD 2 "") v2)
    (h3 : ValidHeaderLine ParseFloat "yllcorner" (inFile.getD 3 "") v3)
    (h4 : ValidHeaderLine ParseFloat "cellsize" (inFile.getD 4 "") v4)
    (key : String) (rest : List String)
    (h5 : strings_Fields (inFile.getD 5 "") = key :: rest) :
    (∀ (tok : String) (rest' : List String) (v : ℚ),
      strings_ToLower key = "nodata_value" → rest = tok :: rest' → ParseFloat tok = some v →
      ∃ r, esriHeaderProcess ParseFloat g inFile (initialHeader g.regionName) d = Except.ok r ∧
        r.hasNoDataValue = true ∧
        r.esriHeader = headerOf g.regionName v0 v1 v2 v3 v4 v) ∧
    (strings_ToLower key ≠ "nodata_value" →
      ∃ r, esriHeaderProcess ParseFloat g inFile (initialHeader g.regionName) d = Except.ok r ∧
        r.hasNoDataValue = false ∧
        r.esriHeader = headerOf g.regionName v0 v1 v2 v3 v4 (-9999)) := by
  have hm := headerLoop_mandatory ParseFloat inFile g.regionName v0 v1 v2 v3 v4 h0 h1 h2 h3 h4
  constructor
  · intro tok rest' v hk hrest hp
    have hv : ValidHeaderLine ParseFloat "nodata_value" (inFile.getD 5 "") v :=
      ⟨key, tok, rest', by rw [h5, hrest], hk, hp⟩
    have e5 := headerLoop_step_valid ParseFloat 0 5 inFile
      (headerOf g.regionName v0 v1 v2 v3 v4 0) true ⟨"nodata_value", 0⟩ v rfl hv
    obtain ⟨r, hr, hh, hb⟩ := esriHeaderProcess_of_loop ParseFloat g inFile _ d _
      (hm.trans (e5.trans rfl))
    exact ⟨r, hr, hb, hh⟩
  · intro hk
    have hf : strings_Fields (skipLoop 5 (NewScanner inFile)).Scan.text = key :: rest := by
      rw [skipLoop_scan_text]; exact h5
    have hb5 := headerBody_mismatch ParseFloat 5 (skipLoop 5 (NewScanner inFile))
      (headerOf g.regionName v0 v1 v2 v3 v4 0) true ⟨"nodata_value", 0⟩ key rest rfl hf
      (fun h => hk h.symm)
    have hl : headerLoop ParseFloat 1 5 (skipLoop 5 (NewScanner inFile))
        (headerOf g.regionName v0 v1 v2 v3 v4 0) true =
        Except.ok ((skipLoop 5 (NewScanner inFile)).Scan,
          headerOf g.regionName v0 v1 v2 v3 v4 (-9999), false) := by
      rw [headerLoop, hb5]
      rfl
    obtain ⟨r, hr, hh, hb⟩ := esriHeaderProcess_of_loop ParseFloat g inFile _ d _ (hm.trans hl)
    exact ⟨r, hr, hb, hh⟩

/-- C5 on two files: the grid with a `NODATA_value -9999` line gives the flag
`true` and the value read from the line; the one-row grid whose sixth line is the
data row `1 2 3` gives the flag `false` and the default `-9999`. -/
theorem esriHeaderProcess_nodata_witness :
    (∃ r, esriHeaderProcess parseDecimal exGlobals exGrid (initialHeader "region") exDevices
        = Except.ok r ∧ r.hasNoDataValue = true ∧
        r.esriHeader = headerOf "region" 2 2 0 0 1 (-9999)) ∧
    (∃ r, esriHeaderProcess parseDecimal exGlobals exExtraToken (initialHeader "region")
        exDevices = Except.ok r ∧ r.hasNoDataValue = false ∧
        r.esriHeader = headerOf "region" 2 1 0 0 1 (-9999)) :=
  ⟨(esriHeaderProcess_nodata parseDecimal exGlobals exGrid exDevices 2 2 0 0 1
      ⟨"ncols", "2", [], by decide, by decide, by decide!⟩
      ⟨"nrows", "2", [], by decide, by decide, by decide!⟩
      ⟨"xllcorner", "0", [], by decide, by decide, by decide!⟩
      ⟨"yllcorner", "0", [], by decide, by decide, by decide!⟩
      ⟨"cellsize", "1", [], by decide, by decide, by decide!⟩
      "NODATA_value" ["-9999"] (by decide)).1 "-9999" [] (-9999) (by decide) rfl (by decide!),
    (esriHeaderProcess_nodata parseDecimal exGlobals exExtraToken exDevices 2 1 0 0 1
      ⟨"ncols", "2", [], by decide, by decide, by decide!⟩
      ⟨"nrows", "1", [], by decide, by decide, by decide!⟩
      ⟨"xllcorner", "0", [], by decide, by decide, by decide!⟩
      ⟨"yllcorner", "0", [], by decide, by decide, by decide!⟩
      ⟨"cellsize", "1", [], by decide, by decide, by decide!⟩
      "1" ["2", "3"] (by decide)).2 (by decide)⟩

/-- C6. If the first field of one of the first five lines, lower-cased, is not the
name of the slot the line occupies, `esriHeaderProcess` panics and returns no
header.  When every earlier line is a valid line or a line with a wrong key, as
when the mandatory keys come in another order, the panic carries the message
`header parameter <name> not found`, `<name>` being the name of the first slot
whose line has a wrong key.  A header that is returned holds in each of its first
five slots the value parsed from the line of the same rank, whose key is the name
of that slot: no value is moved to another slot. -/
theorem esriHeaderProcess_key_order (ParseFloat : String → Option ℚ) (g : Globals)
    (inFile : List String) (d : Devices) :
    (∀ (i : Nat) (key : String) (rest : List String), i < 5 →
      strings_Fields (inFile.getD i "") = key :: rest →
      strings_ToLower key ≠ slotName i →
      (∃ e, esriHeaderProcess ParseFloat g inFile (initialHeader g.regionName) d
        = Except.error e) ∧
      ((∀ k < i, (∃ v, ValidHeaderLine ParseFloat (slotName k) (inFile.getD k "") v) ∨
          (∃ key' rest', strings_Fields (inFile.getD k "") = key' :: rest' ∧
            strings_ToLower key' ≠ slotName k)) →
        ∃ j ≤ i,
          esriHeaderProcess ParseFloat g inFile (initialHeader g.regionName) d =
            Except.error (GoPanic.errorString
              ("invalid esri file format: header parameter " ++ slotName j ++ " not found")) ∧
          ∀ k < j, ∃ v, ValidHeaderLine ParseFloat (slotName k) (inFile.getD k "") v)) ∧
    (∀ r, esriHeaderProcess ParseFloat g inFile (initialHeader g.regionName) d = Except.ok r →
      ∀ i < 5, ValidHeaderLine ParseFloat (slotName i) (inFile.getD i "")
        (r.esriHeader.val i)) := by
  have hinv : ∀ r, esriHeaderProcess ParseFloat g inFile (initialHeader g.regionName) d
      = Except.ok r →
      ∀ i < 5, ValidHeaderLine ParseFloat (slotName i) (inFile.getD i "")
        (r.esriHeader.val i) := by
    intro r hr i hi
    obtain ⟨res, hl, hh, -⟩ := esriHeaderProcess_ok_inv ParseFloat g inFile _ d r hr
    obtain ⟨v0, v1, v2, v3, v4, v5, hv0, hv1, hv2, hv3, hv4, hres, -⟩ :=
      headerLoop_accepts_inv ParseFloat inFile g.regionName res hl
    rw [hh, hres]
    interval_cases i
    · exact hv0
    · exact hv1
    · exact hv2
    · exact hv3
    · exact hv4
  refine ⟨?_, hinv⟩
  intro i key rest hi hf hk
  constructor
  · cases hr : esriHeaderProcess ParseFloat g inFile (initialHeader g.regionName) d with
    | error e => exact ⟨e, rfl⟩
    | ok r =>
      obtain ⟨key', tok, rest', hf', hk', -⟩ := hinv r hr i hi
      rw [hf] at hf'
      simp only [List.cons.injEq] at hf'
      exact absurd (hf'.1 ▸ hk') hk
  · intro hprev
    obtain ⟨j, hj, ⟨keyj, restj, hfj, hkj⟩, hvalid⟩ :=
      first_mismatch ParseFloat inFile i ⟨key, rest, hf, hk⟩ hprev
    refine ⟨j, hj, ?_, hvalid⟩
    apply esriHeaderProcess_of_loop_error
    have h := headerLoop_mismatch_after_valid ParseFloat inFile
      (paramNames (initialHeader g.regionName)) j 6 0 (initialHeader g.regionName) true
      (slotName j) keyj restj rfl (by omega)
      (by
        intro k hk'
        rw [Nat.zero_add]
        obtain ⟨v, hv⟩ := hvalid k hk'
        exact ⟨slotName k, v, paramNames_initialHeader _ k (by omega), hv⟩)
      (by rw [Nat.zero_add]; exact paramNames_initialHeader _ j (by omega))
      (by rw [Nat.zero_add]; simp only [noDataValue]; omega)
      (by rw [Nat.zero_add]; exact hfj)
      (fun h => hkj h.symm)
    exact h

/-- C6 on the file whose first two lines are `nrows 2` and `ncols 2`: the line in
slot `nrows` carries the key `ncols`, and `esriHeaderProcess` panics with
`header parameter ncols not found`, the message of slot 0, the first with a wrong
key. -/
theorem esriHeaderProcess_key_order_witness :
    esriHeaderProcess parseDecimal exGlobals exSwapped (initialHeader "region") exDevices =
      Except.error (GoPanic.errorString
        "invalid esri file format: header parameter ncols not found") ∧
    ∃ j ≤ 1,
      esriHeaderProcess parseDecimal exGlobals exSwapped (initialHeader "region") exDevices =
        Except.error (GoPanic.errorString
          ("invalid esri file format: header parameter " ++ slotName j ++ " not found")) ∧
      ∀ k < j, ∃ v, ValidHeaderLine parseDecimal (slotName k) (exSwapped.getD k "") v :=
  ⟨by decide!,
    ((esriHeaderProcess_key_order parseDecimal exGlobals exSwapped exDevices).1
      1 "ncols" ["2"] (by decide) (by decide) (by decide)).2
      (fun k hk => Or.inr (by
        have hk0 : k = 0 := by omega
        subst hk0
        exact ⟨"nrows", ["2"], by decide, by decide⟩))⟩

/-- C9, the claim fails: the header declaring `ncols 0`, `nrows -1.5` and
`cellsize -1` is accepted, and none of the three constraints holds of it. -/
theorem esriHeaderProcess_accepts_out_of_range :
    ∃ r, esriHeaderProcess parseDecimal exGlobals exNoRangeCheck (initialHeader "region")
        exDevices = Except.ok r ∧
      r.esriHeader = headerOf "region" 0 (-3 / 2) 0 0 (-1) (-9999) ∧
      ¬ (1 ≤ r.esriHeader.val nCols) ∧ ¬ (1 ≤ r.esriHeader.val nRows) ∧
      ¬ (0 < r.esriHeader.val cellSize) :=
  ⟨⟨headerOf "region" 0 (-3 / 2) 0 0 (-1) (-9999), 0, false,
      ⟨[OutputLine.header (headerOf "region" 0 (-3 / 2) 0 0 (-1) (-9999))],
        [OutputLine.header (headerOf "region" 0 (-3 / 2) 0 0 (-1) (-9999))], ⟨1, [], []⟩⟩⟩,
    by decide!, rfl, by decide!, by decide!, by decide!⟩

/-- C9 as amended. `esriHeaderProcess` checks no range: a header it returns holds as
`ncols`, `nrows` and `cellsize` exactly the numbers parsed from the second field of
lines one, two and five, and whatever five numbers the mandatory lines parse to,
the header is returned with them when the sixth line starts with another key.
Downstream, a run of `esriDataProcess` that hands at least one cell to the devices
has `int(nrows) ≥ 1` and `int(ncols) ≥ 1`; `cellsize` is never compared to zero. -/
theorem esriHeaderProcess_stores_parsed_values (ParseFloat : String → Option ℚ)
    (g : Globals) (inFile : List String) (d : Devices) :
    (∀ r, esriHeaderProcess ParseFloat g inFile (initialHeader g.regionName) d = Except.ok r →
      ValidHeaderLine ParseFloat "ncols" (inFile.getD 0 "") (r.esriHeader.val nCols) ∧
      ValidHeaderLine ParseFloat "nrows" (inFile.getD 1 "") (r.esriHeader.val nRows) ∧
      ValidHeaderLine ParseFloat "cellsize" (inFile.getD 4 "") (r.esriHeader.val cellSize)) ∧
    (∀ (v0 v1 v2 v3 v4 : ℚ) (key : String) (rest : List String),
      ValidHeaderLine ParseFloat "ncols" (inFile.getD 0 "") v0 →
      ValidHeaderLine ParseFloat "nrows" (inFile.getD 1 "") v1 →
      ValidHeaderLine ParseFloat "xllcorner" (inFile.getD 2 "") v2 →
      ValidHeaderLine ParseFloat "yllcorner" (inFile.getD 3 "") v3 →
      ValidHeaderLine ParseFloat "cellsize" (inFile.getD 4 "") v4 →
      strings_Fields (inFile.getD 5 "") = key :: rest →
      strings_ToLower key ≠ "nodata_value" →
      ∃ r, esriHeaderProcess ParseFloat g inFile (initialHeader g.regionName) d = Except.ok r ∧
        r.esriHeader.val nCols = v0 ∧ r.esriHeader.val nRows = v1 ∧
        r.esriHeader.val cellSize = v4) ∧
    (∀ (esriHeader : esriHeaderStruct) (tableID : Int) (hasNoDataValue : Bool),
      ∃ cells : List Cell,
        Receives g tableID d
          (esriDataProcess ParseFloat g inFile esriHeader tableID hasNoDataValue d).1 cells ∧
        (cells ≠ [] →
          1 ≤ goInt (esriHeader.val nRows) ∧ 1 ≤ goInt (esriHeader.val nCols))) := by
  refine ⟨?_, ?_, ?_⟩
  · intro r hr
    obtain ⟨res, hl, hh, -⟩ := esriHeaderProcess_ok_inv ParseFloat g inFile _ d r hr
    obtain ⟨v0, v1, v2, v3, v4, v5, hv0, hv1, -, -, hv4, hres, -⟩ :=
      headerLoop_accepts_inv ParseFloat inFile g.regionName res hl
    rw [hh, hres]
    exact ⟨hv0, hv1, hv4⟩
  · intro v0 v1 v2 v3 v4 key rest h0 h1 h2 h3 h4 h5 hk
    have hm := headerLoop_mandatory ParseFloat inFile g.regionName v0 v1 v2 v3 v4
      h0 h1 h2 h3 h4
    have hf : strings_Fields (skipLoop 5 (NewScanner inFile)).Scan.text = key :: rest := by
      rw [skipLoop_scan_text]; exact h5
    have hb5 := headerBody_mismatch ParseFloat 5 (skipLoop 5 (NewScanner inFile))
      (headerOf g.regionName v0 v1 v2 v3 v4 0) true ⟨"nodata_value", 0⟩ key rest rfl hf
      (fun h => hk h.symm)
    have hl : headerLoop ParseFloat 1 5 (skipLoop 5 (NewScanner inFile))
        (headerOf g.regionName v0 v1 v2 v3 v4 0) true =
        Except.ok ((skipLoop 5 (NewScanner inFile)).Scan,
          headerOf g.regionName v0 v1 v2 v3 v4 (-9999), false) := by
      rw [headerLoop, hb5]
      rfl
    obtain ⟨r, hr, hh, -⟩ := esriHeaderProcess_of_loop ParseFloat g inFile _ d _ (hm.trans hl)
    refine ⟨r, hr, ?_, ?_, ?_⟩ <;> rw [hh] <;> rfl
  · intro esriHeader tableID hasNoDataValue
    obtain ⟨name, data⟩ := esriHeader
    match data with
    | c0 :: r0 :: x0 :: y0 :: s0 :: rest =>
      rw [esriDataProcess_eq]
      refine ⟨_, receives_emitCells _ _ _ _, ?_⟩
      intro hne
      obtain ⟨h1, h2⟩ := rowCells_nonempty ParseFloat c0.value x0.value s0.value _ _ _ hne
      refine ⟨?_, h2⟩
      show 1 ≤ goInt r0.value
      omega
    | [] => exact ⟨[], receives_nil _ _ _, fun h => absurd rfl h⟩
    | [_] => exact ⟨[], receives_nil _ _ _, fun h => absurd rfl h⟩
    | [_, _] => exact ⟨[], receives_nil _ _ _, fun h => absurd rfl h⟩
    | [_, _, _] => exact ⟨[], receives_nil _ _ _, fun h => absurd rfl h⟩
    | [_, _, _, _] => exact ⟨[], receives_nil _ _ _, fun h => absurd rfl h⟩

/-- C9 as amended, on the file declaring `ncols 0`, `nrows -1.5`, `cellsize -1`:
the header is returned with these three numbers. -/
theorem esriHeaderProcess_stores_parsed_values_witness :
    ∃ r, esriHeaderProcess parseDecimal exGlobals exNoRangeCheck (initialHeader "region")
        exDevices = Except.ok r ∧
      r.esriHeader.val nCols = 0 ∧ r.esriHeader.val nRows = -3 / 2 ∧
      r.esriHeader.val cellSize = -1 :=
  (esriHeaderProcess_stores_parsed_values parseDecimal exGlobals exNoRangeCheck exDevices).2.1
    0 (-3 / 2) 0 0 (-1) "7" ["8"]
    ⟨"ncols", "0", [], by decide, by decide, by decide!⟩
    ⟨"nrows", "-1.5", [], by decide, by decide, by decide!⟩
    ⟨"xllcorner", "0", [], by decide, by decide, by decide!⟩
    ⟨"yllcorner", "0", [], by decide, by decide, by decide!⟩
    ⟨"cellsize", "-1", [], by decide, by decide, by decide!⟩
    (by decide) (by decide)

/-- C10. On the file that ends after its five valid mandatory lines, and on the
file whose sixth line is blank, `esriHeaderProcess` panics with an index out of
range: the first field of the sixth line is read before it is known to exist. -/
theorem esriHeaderProcess_panics_without_sixth_line :
    esriHeaderProcess parseDecimal exGlobals exHeaderOnly (initialHeader "region") exDevices
        = Except.error GoPanic.indexOutOfRange ∧
    esriHeaderProcess parseDecimal exGlobals exBlankSixth (initialHeader "region") exDevices
        = Except.error GoPanic.indexOutOfRange := by
  decide!

/-- C7. When `esriHeaderProcess` has returned the flag `hasNoDataValue`, `main` runs
`esriDataProcess` with that flag, and `esriDataProcess` processes as data rows
0, 1, 2, ... the consecutive lines of the file that start right after the header
block: from the seventh line when the flag is `true`, from the sixth line, the one
whose key did not match, when it is `false`.  No line is skipped or read twice. -/
theorem main_data_rows_follow_header (ParseFloat : String → Option ℚ) (g : Globals)
    (inFile : List String) (d : Devices) (r : HeaderResult)
    (hh : esriHeaderProcess ParseFloat g inFile (initialHeader g.regionName)
      { d with console := d.console ++ [OutputLine.banner] } = Except.ok r) :
    main ParseFloat g inFile d =
      (match esriDataProcess ParseFloat g inFile r.esriHeader r.tableID r.hasNoDataValue
          r.devices with
        | (d, some e) => (d, some e)
        | (d, none) =>
          (if g.outputToConsole then { d with console := d.console ++ [OutputLine.elapsed] }
            else d, none)) ∧
    esriDataProcess ParseFloat g inFile r.esriHeader r.tableID r.hasNoDataValue r.devices =
      rowLoopOn ParseFloat g r.tableID (r.esriHeader.val nCols) (r.esriHeader.val xllCorner)
        (r.esriHeader.val cellSize)
        (dataRows inFile (if r.hasNoDataValue then 6 else 5)
          (goInt (r.esriHeader.val nRows)).toNat)
        (r.esriHeader.val yllCorner + r.esriHeader.val nRows * r.esriHeader.val cellSize)
        (if g.outputToFile then { r.devices with file := [] } else r.devices) := by
  constructor
  · simp only [main, hh]
  · obtain ⟨res, hl, hhdr, -⟩ := esriHeaderProcess_ok_inv ParseFloat g inFile _ _ r hh
    obtain ⟨v0, v1, v2, v3, v4, v5, -, -, -, -, -, hres, -⟩ :=
      headerLoop_accepts_inv ParseFloat inFile g.regionName res hl
    rw [hhdr, hres]
    simp only [esriDataProcess, headerOf, rowLoop_eq_on, skip_count, esriHeaderStruct.val,
      nCols, nRows, xllCorner, yllCorner, cellSize, List.getD_cons_zero, List.getD_cons_succ]

/-- C7 on the two by two grid without `nodata_value` line: the header stage
returns the flag `false`, and the two data rows are the sixth and seventh lines. -/
theorem main_data_rows_follow_header_witness :
    esriHeaderProcess parseDecimal exGlobals exNoNodata (initialHeader exGlobals.regionName)
      { exDevices with console := exDevices.console ++ [OutputLine.banner] }
        = Except.ok exNoNodataResult ∧
    dataRows exNoNodata (if exNoNodataResult.hasNoDataValue then 6 else 5)
        (goInt (exNoNodataResult.esriHeader.val nRows)).toNat = ["10 20 ", "30 40 "] ∧
    (main parseDecimal exGlobals exNoNodata exDevices =
      (match esriDataProcess parseDecimal exGlobals exNoNodata exNoNodataResult.esriHeader
          exNoNodataResult.tableID exNoNodataResult.hasNoDataValue
          exNoNodataResult.devices with
        | (d, some e) => (d, some e)
        | (d, none) =>
          (if exGlobals.outputToConsole then
              { d with console := d.console ++ [OutputLine.elapsed] }
            else d, none)) ∧
    esriDataProcess parseDecimal exGlobals exNoNodata exNoNodataResult.esriHeader
        exNoNodataResult.tableID exNoNodataResult.hasNoDataValue exNoNodataResult.devices =
      rowLoopOn parseDecimal exGlobals exNoNodataResult.tableID
        (exNoNodataResult.esriHeader.val nCols) (exNoNodataResult.esriHeader.val xllCorner)
        (exNoNodataResult.esriHeader.val cellSize)
        (dataRows exNoNodata (if exNoNodataResult.hasNoDataValue then 6 else 5)
          (goInt (exNoNodataResult.esriHeader.val nRows)).toNat)
        (exNoNodataResult.esriHeader.val yllCorner
          + exNoNodataResult.esriHeader.val nRows * exNoNodataResult.esriHeader.val cellSize)
        (if exGlobals.outputToFile then { exNoNodataResult.devices with file := [] }
          else exNoNodataResult.devices)) :=
  ⟨by decide!, by decide!,
    main_data_rows_follow_header parseDecimal exGlobals exNoNodata exDevices exNoNodataResult
      (by decide!)⟩

/-- C8, the claim fails: the first line of `exLongS` has the key `ncol` followed by
the long s, and `esriHeaderProcess` panics on it with `header parameter ncols not
found`; with the letters of that line replaced by their upper-case counterparts,
the long s becoming `S`, the header is returned. -/
theorem esriHeaderProcess_key_case_long_s :
    toUpperRune (Char.ofNat 0x17F) = Char.ofNat 83 ∧
    (exLongS.getD 0 "").data.map toUpperRune = (exLongSUpper.getD 0 "").data ∧
    exLongS.tail = exLongSUpper.tail ∧
    esriHeaderProcess parseDecimal exGlobals exLongS (initialHeader "region") exDevices =
      Except.error (GoPanic.errorString
        "invalid esri file format: header parameter ncols not found") ∧
    esriHeaderProcess parseDecimal exGlobals exLongSUpper (initialHeader "region") exDevices =
      Except.ok ⟨exHeader 2 2 0 0 1, 0, false,
        ⟨[OutputLine.header (exHeader 2 2 0 0 1)],
          [OutputLine.header (exHeader 2 2 0 0 1)], ⟨1, [], []⟩⟩⟩ := by
  decide!

/-- C8 as amended. Replacing ASCII letters of the key token of any of the six header
lines by their upper-case or lower-case counterparts leaves the result of
`esriHeaderProcess` unchanged: the same panic, or the same header, flag, table id
and device writes. -/
theorem esriHeaderProcess_key_case_insensitive (ParseFloat : String → Option ℚ)
    (g : Globals) (inFile inFile' : List String) (esriHeader : esriHeaderStruct)
    (d : Devices)
    (hv : ∀ i < 6, KeyCaseVariant (inFile.getD i "") (inFile'.getD i "")) :
    esriHeaderProcess ParseFloat g inFile' esriHeader d =
      esriHeaderProcess ParseFloat g inFile esriHeader d := by
  apply esriHeaderProcess_congr
  exact headerLoop_congr ParseFloat inFile inFile' 6 0 esriHeader true
    (fun k _ hk => headerView_keyCaseVariant _ _ (hv k (by omega)))

/-- C8 as amended, on the two by two grid: writing the six keys as `NCOLS`, `NRows`,
`XLLCORNER`, `yllCorner`, `CellSize`, `nodata_VALUE` gives the same result. -/
theorem esriHeaderProcess_key_case_insensitive_witness :
    (∀ i < 6, KeyCaseVariant (exGrid.getD i "") (exGridUpper.getD i "")) ∧
    esriHeaderProcess parseDecimal exGlobals exGridUpper (initialHeader "region") exDevices =
      esriHeaderProcess parseDecimal exGlobals exGrid (initialHeader "region") exDevices :=
  have hv : ∀ i < 6, KeyCaseVariant (exGrid.getD i "") (exGridUpper.getD i "") := by
    intro i hi
    interval_cases i
    · exact ⟨[], "ncols".data, "NCOLS".data, " 2".data,
        by decide, by decide, by decide, by decide, by decide, by decide⟩
    · exact ⟨[], "nrows".data, "NRows".data, " 2".data,
        by decide, by decide, by decide, by decide, by decide, by decide⟩
    · exact ⟨[], "xllcorner".data, "XLLCORNER".data, " 0".data,
        by decide, by decide, by decide, by decide, by decide, by decide⟩
    · exact ⟨[], "yllcorner".data, "yllCorner".data, " 0".data,
        by decide, by decide, by decide, by decide, by decide, by decide⟩
    · exact ⟨[], "cellsize".data, "CellSize".data, " 1".data,
        by decide, by decide, by decide, by decide, by decide, by decide⟩
    · exact ⟨[], "NODATA_value".data, "nodata_VALUE".data, " -9999".data,
        by decide, by decide, by decide, by decide, by decide, by decide⟩
  ⟨hv, esriHeaderProcess_key_case_insensitive parseDecimal exGlobals exGrid exGridUpper
    (initialHeader "region") exDevices hv⟩

/-- C11. If one of the six header lines has the name of its slot as key and a value
token that is missing or does not parse, `esriHeaderProcess` panics and returns no
header.  When the lines before it are valid the panic carries the message
`header parameter value for <name> not found` if the value token is missing, and
is the error of the number parser on that token if it does not parse. -/
theorem esriHeaderProcess_value_errors (ParseFloat : String → Option ℚ) (g : Globals)
    (inFile : List String) (d : Devices) (i : Nat) (key : String) (rest : List String)
    (hi : i < 6)
    (hf : strings_Fields (inFile.getD i "") = key :: rest)
    (hk : strings_ToLower key = slotName i)
    (hbad : rest = [] ∨ ∃ tok rest', rest = tok :: rest' ∧ ParseFloat tok = none) :
    (∃ e, esriHeaderProcess ParseFloat g inFile (initialHeader g.regionName) d
      = Except.error e) ∧
    ((∀ k < i, ∃ v, ValidHeaderLine ParseFloat (slotName k) (inFile.getD k "") v) →
      (rest = [] →
        esriHeaderProcess ParseFloat g inFile (initialHeader g.regionName) d =
          Except.error (GoPanic.errorString
            ("invalid esri file format: header parameter value for " ++ slotName i ++
              " not found"))) ∧
      (∀ tok rest', rest = tok :: rest' → ParseFloat tok = none →
        esriHeaderProcess ParseFloat g inFile (initialHeader g.regionName) d =
          Except.error (GoPanic.numError tok))) := by
  have hnotvalid : ∀ v, ¬ ValidHeaderLine ParseFloat (slotName i) (inFile.getD i "") v := by
    rintro v ⟨key', tok, rest', hf', -, hp⟩
    rw [hf] at hf'
    simp only [List.cons.injEq] at hf'
    rcases hbad with h0 | ⟨tok0, rest0, hr, hp0⟩
    · rw [h0] at hf'; exact absurd hf'.2 (by simp)
    · rw [hr] at hf'
      simp only [List.cons.injEq] at hf'
      rw [hf'.2.1, hp] at hp0
      exact absurd hp0 (by simp)
  constructor
  · cases hr : esriHeaderProcess ParseFloat g inFile (initialHeader g.regionName) d with
    | error e => exact ⟨e, rfl⟩
    | ok r =>
      exfalso
      obtain ⟨res, hl, -, -⟩ := esriHeaderProcess_ok_inv ParseFloat g inFile _ d r hr
      obtain ⟨v0, v1, v2, v3, v4, v5, hv0, hv1, hv2, hv3, hv4, -, h5⟩ :=
        headerLoop_accepts_inv ParseFloat inFile g.regionName res hl
      interval_cases i
      · exact hnotvalid v0 hv0
      · exact hnotvalid v1 hv1
      · exact hnotvalid v2 hv2
      · exact hnotvalid v3 hv3
      · exact hnotvalid v4 hv4
      · rcases h5 with ⟨hv5, -⟩ | ⟨-, -, key', rest', hf', hk'⟩
        · exact hnotvalid v5 hv5
        · rw [hf] at hf'
          simp only [List.cons.injEq] at hf'
          rw [← hf'.1] at hk'
          exact hk' hk.symm
  · intro hvalid
    have hprev : ∀ k < i, ∃ nm v,
        (paramNames (initialHeader g.regionName))[0 + k]? = some nm ∧
        ValidHeaderLine ParseFloat nm (inFile.getD (0 + k) "") v := by
      intro k hk'
      rw [Nat.zero_add]
      obtain ⟨v, hv⟩ := hvalid k hk'
      exact ⟨slotName k, v, paramNames_initialHeader _ k (by omega), hv⟩
    have hscan : strings_Fields (skipLoop (0 + i) (NewScanner inFile)).Scan.text
        = key :: rest := by
      rw [Nat.zero_add, skipLoop_scan_text]; exact hf
    constructor
    · intro h0
      subst h0
      apply esriHeaderProcess_of_loop_error
      refine headerLoop_error_after_valid ParseFloat inFile
        (paramNames (initialHeader g.regionName)) i 6 0 (initialHeader g.regionName) true _
        rfl hi hprev ?_
      intro h' b' hn'
      obtain ⟨slot, hslot, hp⟩ := slot_of_slotName g.regionName h' i hi hn'
      rw [Nat.zero_add] at hscan ⊢
      rw [headerBody_value_missing ParseFloat i _ h' b' slot key hslot hscan (hp.trans hk.symm),
        hp]
    · intro tok rest' hr hp0
      subst hr
      apply esriHeaderProcess_of_loop_error
      refine headerLoop_error_after_valid ParseFloat inFile
        (paramNames (initialHeader g.regionName)) i 6 0 (initialHeader g.regionName) true _
        rfl hi hprev ?_
      intro h' b' hn'
      obtain ⟨slot, hslot, hp⟩ := slot_of_slotName g.regionName h' i hi hn'
      rw [Nat.zero_add] at hscan ⊢
      exact headerBody_not_numeric ParseFloat i _ h' b' slot key tok rest' hslot hscan
        (hp.trans hk.symm) hp0

/-- C11 on two files: the line `nrows` without value gives the panic
`header parameter value for nrows not found`, the line `nrows two` gives the error
of the number parser on `two`. -/
theorem esriHeaderProcess_value_errors_witness :
    esriHeaderProcess parseDecimal exGlobals exMissingValue (initialHeader "region") exDevices =
      Except.error (GoPanic.errorString
        ("invalid esri file format: header parameter value for " ++ slotName 1 ++
          " not found")) ∧
    esriHeaderProcess parseDecimal exGlobals exBadValue (initialHeader "region") exDevices =
      Except.error (GoPanic.numError "two") :=
  ⟨((esriHeaderProcess_value_errors parseDecimal exGlobals exMissingValue exDevices
      1 "nrows" [] (by decide) (by decide) (by decide) (Or.inl rfl)).2
      (fun k hk => by
        have hk0 : k = 0 := by omega
        subst hk0
        exact ⟨2, "ncols", "2", [], by decide, by decide, by decide!⟩)).1 rfl,
    ((esriHeaderProcess_value_errors parseDecimal exGlobals exBadValue exDevices
      1 "nrows" ["two"] (by decide) (by decide) (by decide)
      (Or.inr ⟨"two", [], rfl, by decide!⟩)).2
      (fun k hk => by
        have hk0 : k = 0 := by omega
        subst hk0
        exact ⟨2, "ncols", "2", [], by decide, by decide, by decide!⟩)).2
      "two" [] rfl (by decide!)⟩

/-- C12. If one of the first five lines is empty or blank, and in particular if the
file has fewer than five lines, `esriHeaderProcess` panics and returns no header;
when the lines before the blank one are valid the panic is the index out of range
raised on the first field of the blank line. -/
theorem esriHeaderProcess_blank_line (ParseFloat : String → Option ℚ) (g : Globals)
    (inFile : List String) (d : Devices) :
    (∀ i < 5, strings_Fields (inFile.getD i "") = [] →
      (∃ e, esriHeaderProcess ParseFloat g inFile (initialHeader g.regionName) d
        = Except.error e) ∧
      ((∀ k < i, ∃ v, ValidHeaderLine ParseFloat (slotName k) (inFile.getD k "") v) →
        esriHeaderProcess ParseFloat g inFile (initialHeader g.regionName) d =
          Except.error GoPanic.indexOutOfRange)) ∧
    (inFile.length < 5 →
      ∃ e, esriHeaderProcess ParseFloat g inFile (initialHeader g.regionName) d
        = Except.error e) := by
  have hmain : ∀ i < 5, strings_Fields (inFile.getD i "") = [] →
      (∃ e, esriHeaderProcess ParseFloat g inFile (initialHeader g.regionName) d
        = Except.error e) ∧
      ((∀ k < i, ∃ v, ValidHeaderLine ParseFloat (slotName k) (inFile.getD k "") v) →
        esriHeaderProcess ParseFloat g inFile (initialHeader g.regionName) d =
          Except.error GoPanic.indexOutOfRange) := by
    intro i hi hf
    have hnotvalid : ∀ v, ¬ ValidHeaderLine ParseFloat (slotName i) (inFile.getD i "") v := by
      rintro v ⟨key', tok, rest', hf', -, -⟩
      rw [hf] at hf'
      exact absurd hf' (by simp)
    constructor
    · cases hr : esriHeaderProcess ParseFloat g inFile (initialHeader g.regionName) d with
      | error e => exact ⟨e, rfl⟩
      | ok r =>
        exfalso
        obtain ⟨res, hl, -, -⟩ := esriHeaderProcess_ok_inv ParseFloat g inFile _ d r hr
        obtain ⟨v0, v1, v2, v3, v4, v5, hv0, hv1, hv2, hv3, hv4, -, -⟩ :=
          headerLoop_accepts_inv ParseFloat inFile g.regionName res hl
        interval_cases i
        · exact hnotvalid v0 hv0
        · exact hnotvalid v1 hv1
        · exact hnotvalid v2 hv2
        · exact hnotvalid v3 hv3
        · exact hnotvalid v4 hv4
    · intro hvalid
      apply esriHeaderProcess_of_loop_error
      refine headerLoop_error_after_valid ParseFloat inFile
        (paramNames (initialHeader g.regionName)) i 6 0 (initialHeader g.regionName) true _
        rfl (by omega) ?_ ?_
      · intro k hk'
        rw [Nat.zero_add]
        obtain ⟨v, hv⟩ := hvalid k hk'
        exact ⟨slotName k, v, paramNames_initialHeader _ k (by omega), hv⟩
      · intro h' b' _
        rw [Nat.zero_add]
        exact headerBody_blank ParseFloat i _ h' b' (by rw [skipLoop_scan_text]; exact hf)
  refine ⟨hmain, ?_⟩
  intro hlen
  refine (hmain inFile.length hlen ?_).1
  rw [List.getD_eq_default _ _ (le_refl _)]
  rfl

/-- C12 on a file of three lines: `esriHeaderProcess` panics with an index out of
range when it looks for the fourth line. -/
theorem esriHeaderProcess_blank_line_witness :
    exThreeLines.length < 5 ∧
    esriHeaderProcess parseDecimal exGlobals exThreeLines (initialHeader "region") exDevices =
      Except.error GoPanic.indexOutOfRange :=
  ⟨by decide,
    ((esriHeaderProcess_blank_line parseDecimal exGlobals exThreeLines exDevices).1
      3 (by decide) (by decide)).2
      (fun k hk => by
        interval_cases k
        · exact ⟨2, "ncols", "2", [], by decide, by decide, by decide!⟩
        · exact ⟨2, "nrows", "2", [], by decide, by decide, by decide!⟩
        · exact ⟨0, "xllcorner", "0", [], by decide, by decide, by decide!⟩)⟩

/-- C13. On a file declaring `ncols 2` whose only data row is `1 x`, two tokens of
which the second is not a number, the run is stopped by the row-width panic and not
by a parse error.  When the row ends in a blank, `1 x `, the run is stopped by the
error of the number parser on `x`, after the cell for `1` has been emitted. -/
theorem main_bad_token_row_width_panic :
    main parseDecimal exGlobals exBadToken exDevices =
      (⟨[OutputLine.banner, OutputLine.header (exHeader 2 1 0 0 1)], [], ⟨1, [], []⟩⟩,
        some (GoPanic.errorString "nCols != line length")) ∧
    main parseDecimal exGlobals exBadTokenBlank exDevices =
      (⟨[OutputLine.banner, OutputLine.header (exHeader 2 1 0 0 1), OutputLine.cell ⟨0, 0, 1⟩],
          [OutputLine.cell ⟨0, 0, 1⟩], ⟨1, [], []⟩⟩,
        some (GoPanic.numError "x")) := by
  decide!

/-- C14. `esriDataProcess` finishes without a panic exactly when the header has its
five mandatory slots and each of the data lines it reads is accepted: splitting it
on the single space gives exactly `ncols + 1` fields of which the first `ncols`
parse, `ncols` being the integer `int(ncols)` that the code compares with the
width.  The number of data lines read is `int(nrows)`, none when that is negative.
The last field is never read: two files whose data lines have the same fields but
the last give the same devices and the same outcome. -/
theorem esriDataProcess_accepts_iff (ParseFloat : String → Option ℚ) (g : Globals)
    (inFile : List String) (esriHeader : esriHeaderStruct) (tableID : Int)
    (hasNoDataValue : Bool) (d : Devices) :
    ((esriDataProcess ParseFloat g inFile esriHeader tableID hasNoDataValue d).2 = none ↔
      5 ≤ esriHeader.esriHeaderData.length ∧
      ∀ r < (goInt (esriHeader.val nRows)).toNat,
        RowAccepted ParseFloat (esriHeader.val nCols)
          (inFile.getD ((5 + boolToInt hasNoDataValue).toNat + r) "")) ∧
    (∀ inFile' : List String,
      (∀ k, (5 + boolToInt hasNoDataValue).toNat ≤ k →
        (strings_Split_space (inFile'.getD k "")).dropLast
          = (strings_Split_space (inFile.getD k "")).dropLast) →
      esriDataProcess ParseFloat g inFile' esriHeader tableID hasNoDataValue d =
        esriDataProcess ParseFloat g inFile esriHeader tableID hasNoDataValue d) := by
  obtain ⟨name, data⟩ := esriHeader
  match data with
  | c0 :: r0 :: x0 :: y0 :: s0 :: rest =>
    constructor
    · rw [esriDataProcess_eq]
      simp only []
      rw [rowCells_ok_iff]
      have hlen : 5 ≤ (c0 :: r0 :: x0 :: y0 :: s0 :: rest).length := by simp
      simp only [hlen, true_and, skipLoop_pending, NewScanner, getD_drop_line]
      exact Iff.rfl
    · intro inFile' h
      rw [esriDataProcess_eq_on, esriDataProcess_eq_on]
      exact rowLoopOn_dataRows_congr ParseFloat g tableID _ _ _ inFile inFile' _ _ _ _ h
  | [] => exact ⟨by simp [esriDataProcess], fun _ _ => rfl⟩
  | [_] => exact ⟨by simp [esriDataProcess], fun _ _ => rfl⟩
  | [_, _] => exact ⟨by simp [esriDataProcess], fun _ _ => rfl⟩
  | [_, _, _] => exact ⟨by simp [esriDataProcess], fun _ _ => rfl⟩
  | [_, _, _, _] => exact ⟨by simp [esriDataProcess], fun _ _ => rfl⟩

/-- C14 on the two by two grid: writing `junk` and `99` after the last blank of the
two data rows changes neither the devices nor the outcome, and the run finishes.
On the header declaring `nrows 1e19`, which no 64-bit integer holds, no data line
is read and the run finishes with the devices as they were. -/
theorem esriDataProcess_accepts_iff_witness :
    (∀ k, (5 + boolToInt true).toNat ≤ k →
      (strings_Split_space (exGridJunk.getD k "")).dropLast
        = (strings_Split_space (exGrid.getD k "")).dropLast) ∧
    esriDataProcess parseDecimal exGlobals exGridJunk (exHeader 2 2 0 0 1) 0 true exDevices =
      esriDataProcess parseDecimal exGlobals exGrid (exHeader 2 2 0 0 1) 0 true exDevices ∧
    (esriDataProcess parseDecimal exGlobals exGridJunk (exHeader 2 2 0 0 1) 0 true
      exDevices).2 = none ∧
    esriDataProcess parseDecimal exGlobals exHuge (exHeader 2 (10 ^ 19) 0 0 1) 0 false
      exDevices = (exDevices, none) :=
  have hsame : ∀ k, (5 + boolToInt true).toNat ≤ k →
      (strings_Split_space (exGridJunk.getD k "")).dropLast
        = (strings_Split_space (exGrid.getD k "")).dropLast := by
    intro k hk
    have hk6 : 6 ≤ k := hk
    rcases Nat.lt_or_ge k 8 with hlt | hge
    · interval_cases k
      · decide
      · decide
    · rw [List.getD_eq_default _ _ (by simpa [exGridJunk] using hge),
        List.getD_eq_default _ _ (by simpa [exGrid] using hge)]
  ⟨hsame,
    (esriDataProcess_accepts_iff parseDecimal exGlobals exGrid (exHeader 2 2 0 0 1) 0 true
      exDevices).2 exGridJunk hsame,
    by decide!, by decide!⟩

/-- C15, the claim fails: on the file declaring `ncols -1` and `nrows -1`, with file
output enabled, `main` finishes without a panic and leaves the output file empty,
while `nrows * ncols` is 1. -/
theorem main_output_file_lines_not_product :
    exGlobals.outputToFile = true ∧
    main parseDecimal exGlobals exNegative exDevices =
      (⟨[OutputLine.banner, OutputLine.header (exHeader (-1) (-1) 0 0 1), OutputLine.elapsed],
          [], ⟨1, [], []⟩⟩, none) ∧
    (exHeader (-1) (-1) 0 0 1).val nRows * (exHeader (-1) (-1) 0 0 1).val nCols = 1 := by
  decide!

/-- C15 as amended. With file output enabled, when `main` finishes without a panic
the header stage had left the output file holding the header line, and the file
ends up holding exactly the cells handed to the devices by `esriDataProcess`, one
line per cell, `max 0 (int nrows) * max 0 (int ncols)` lines, and no header line:
the file is created anew by `esriDataProcess` before the first cell is written. -/
theorem main_output_file_holds_cells_only (ParseFloat : String → Option ℚ) (g : Globals)
    (inFile : List String) (d : Devices)
    (hfile : g.outputToFile = true)
    (hok : (main ParseFloat g inFile d).2 = none) :
    ∃ (r : HeaderResult) (cells : List Cell),
      esriHeaderProcess ParseFloat g inFile (initialHeader g.regionName)
        { d with console := d.console ++ [OutputLine.banner] } = Except.ok r ∧
      r.devices.file = [OutputLine.header r.esriHeader] ∧
      Receives g r.tableID r.devices
        (esriDataProcess ParseFloat g inFile r.esriHeader r.tableID r.hasNoDataValue
          r.devices).1 cells ∧
      cells.length =
        (goInt (r.esriHeader.val nRows)).toNat * (goInt (r.esriHeader.val nCols)).toNat ∧
      (main ParseFloat g inFile d).1.file = cells.map OutputLine.cell := by
  cases hh : esriHeaderProcess ParseFloat g inFile (initialHeader g.regionName)
      { d with console := d.console ++ [OutputLine.banner] } with
  | error e => simp [main, hh] at hok
  | ok r =>
    obtain ⟨hm2, hm1⟩ := main_of_header_ok ParseFloat g inFile d r hh
    rw [hm2] at hok
    obtain ⟨res, hl, hhdr, -⟩ := esriHeaderProcess_ok_inv ParseFloat g inFile _ _ r hh
    obtain ⟨v0, v1, v2, v3, v4, v5, -, -, -, -, -, hres, -⟩ :=
      headerLoop_accepts_inv ParseFloat inFile g.regionName res hl
    have hE : r.esriHeader = headerOf g.regionName v0 v1 v2 v3 v4 v5 := hhdr.trans hres
    have hfh := esriHeaderProcess_file ParseFloat g inFile _ _ r hh hfile
    have heq := esriDataProcess_eq ParseFloat g inFile ⟨"name", g.regionName⟩
      ⟨"ncols", v0⟩ ⟨"nrows", v1⟩ ⟨"xllcorner", v2⟩ ⟨"yllcorner", v3⟩ ⟨"cellsize", v4⟩
      [⟨"nodata_value", v5⟩] r.tableID r.hasNoDataValue r.devices
    have heq' : esriDataProcess ParseFloat g inFile r.esriHeader r.tableID r.hasNoDataValue
        r.devices =
        (emitCells g r.tableID
          (rowCells ParseFloat v0 v2 v4 (goInt v1).toNat
            (skipLoop (5 + boolToInt r.hasNoDataValue).toNat (NewScanner inFile))
            (v3 + v1 * v4)).1
          (if g.outputToFile then { r.devices with file := [] } else r.devices),
        (rowCells ParseFloat v0 v2 v4 (goInt v1).toNat
            (skipLoop (5 + boolToInt r.hasNoDataValue).toNat (NewScanner inFile))
            (v3 + v1 * v4)).2) := by rw [hE]; exact heq
    rw [heq'] at hok
    simp only [] at hok
    obtain ⟨hlen, -⟩ := rowCells_of_ok ParseFloat v0 v2 v4 _ _ _ hok
    have hrec := receives_emitCells g r.tableID
      (rowCells ParseFloat v0 v2 v4 (goInt v1).toNat
        (skipLoop (5 + boolToInt r.hasNoDataValue).toNat (NewScanner inFile))
        (v3 + v1 * v4)).1 r.devices
    refine ⟨r, (rowCells ParseFloat v0 v2 v4 (goInt v1).toNat
        (skipLoop (5 + boolToInt r.hasNoDataValue).toNat (NewScanner inFile))
        (v3 + v1 * v4)).1, rfl, hfh, ?_, ?_, ?_⟩
    · rw [heq']; exact hrec
    · rw [hE]; exact hlen
    · rw [hm1, heq', hrec.2.1, if_pos hfile]

/-- C15 as amended, on the two by two grid: after the header stage the file holds the
header line; at the end of the run it holds the four cell lines only. -/
theorem main_output_file_holds_cells_only_witness :
    (main parseDecimal exGlobals exGrid exDevices).1.file
        = [OutputLine.cell ⟨1, 0, 10⟩, OutputLine.cell ⟨1, 1, 20⟩,
            OutputLine.cell ⟨0, 0, 30⟩, OutputLine.cell ⟨0, 1, 40⟩] ∧
    ∃ (r : HeaderResult) (cells : List Cell),
      esriHeaderProcess parseDecimal exGlobals exGrid (initialHeader exGlobals.regionName)
        { exDevices with console := exDevices.console ++ [OutputLine.banner] }
          = Except.ok r ∧
      r.devices.file = [OutputLine.header r.esriHeader] ∧
      Receives exGlobals r.tableID r.devices
        (esriDataProcess parseDecimal exGlobals exGrid r.esriHeader r.tableID
          r.hasNoDataValue r.devices).1 cells ∧
      cells.length =
        (goInt (r.esriHeader.val nRows)).toNat * (goInt (r.esriHeader.val nCols)).toNat ∧
      (main parseDecimal exGlobals exGrid exDevices).1.file = cells.map OutputLine.cell :=
  ⟨by decide!,
    main_output_file_holds_cells_only parseDecimal exGlobals exGrid exDevices
      (by decide) (by decide!)⟩

/-- C16. For all values of the five flags, `parseFlags` enables console, file and
database output exactly when the value of `-dev` contains `con`, `file` and `db`,
and it calls the usage function exactly when `-in` is empty, or file output is
selected and `-out` is empty, or database output is selected and `-db` or `-name`
is empty, or none of the three devices is selected. -/
theorem parseFlags_devices_and_usage (f : FlagValues) :
    ((parseFlags f).outputToConsole = true ↔ "con".data <:+: f.dev.data) ∧
    ((parseFlags f).outputToFile = true ↔ "file".data <:+: f.dev.data) ∧
    ((parseFlags f).outputToDb = true ↔ "db".data <:+: f.dev.data) ∧
    ((parseFlags f).usage = true ↔
      f.inFile = "" ∨
      ((parseFlags f).outputToFile = true ∧ f.outFile = "") ∨
      ((parseFlags f).outputToDb = true ∧ (f.db = "" ∨ f.name = "")) ∨
      ((parseFlags f).outputToConsole = false ∧ (parseFlags f).outputToFile = false ∧
        (parseFlags f).outputToDb = false)) := by
  refine ⟨?_, ?_, ?_, ?_⟩
  · rw [← strings_Contains_iff]
    simp [parseFlags]
  · rw [← strings_Contains_iff]
    simp [parseFlags]
  · rw [← strings_Contains_iff]
    simp [parseFlags]
  · simp only [parseFlags]
    by_cases hin : f.inFile = "" <;> by_cases hout : f.outFile = "" <;>
      by_cases hdb : f.db = "" <;> by_cases hname : f.name = "" <;>
      cases strings_Contains f.dev "con" <;> cases strings_Contains f.dev "file" <;>
      cases strings_Contains f.dev "db" <;> simp [hin, hout, hdb, hname]

/-- C16 on the flags `-in=/abc.asc -dev=con,file -out=`: console and file output are
selected, `-out` is empty, and the usage function is called. -/
theorem parseFlags_devices_and_usage_witness :
    (parseFlags exFlagsNoOut).outputToConsole = true ∧
    (parseFlags exFlagsNoOut).outputToFile = true ∧
    (parseFlags exFlagsNoOut).outputToDb = false ∧
    (parseFlags exFlagsNoOut).usage = true :=
  ⟨(parseFlags_devices_and_usage exFlagsNoOut).1.2 (by decide),
    (parseFlags_devices_and_usage exFlagsNoOut).2.1.2 (by decide),
    by decide,
    (parseFlags_devices_and_usage exFlagsNoOut).2.2.2.2
      (Or.inr (Or.inl ⟨by decide, by decide⟩))⟩

end EsriAsciiParser
